import Mathlib

/-!
# Shallow embedding of `plugins/inputs/fritzbox/fritzbox.go`

The plugin consists of one function with behaviour, `Fritzbox.Gather`.  It is
embedded here as a pure function over an explicit state:

* the local variables of `Gather` (`last_service`, `last_method`, `result`,
  `fields`) are the fields of `State`;
* the two external collaborators, the UPnP client (`upnp.LoadServices`,
  `Action.Call`, `Action.CallParam`) and the accumulator (`acc.AddFields`), are
  observed through a trace of `Event`s kept in the state; the remote device is
  an abstract world `σ` threaded through every invocation, so an action may
  answer differently each time it is invoked;
* a nil-pointer dereference (`subaction.CallParam` on an action that is absent
  from `service.Actions`) is the outcome `Outcome.panic`;
* Go maps are association lists with pairwise distinct keys; the order of the
  list carries no meaning and properties are stated through `mapGet`;
* `log.Println` has no influence on control flow or on the accumulator and is
  left out of the trace;
* `int` is 64 bits wide: `int(tval)` for a `uint64` is `toInt`.  The instance
  loop `for s := 1; s <= m.ServiceCount; s++` is embedded for
  `m.ServiceCount < 2^63 - 1`, where `s++` cannot wrap around;
* the package-level tables `metrics` and `complexMetrics` are arguments of the
  embedded `Gather`; the program only ever runs it on the two tables of the
  source, and properties that depend on the shape of the table are stated for
  these.
-/

namespace fritzbox

/-! ## Go maps -/

/-- A Go `map[string]V`, as an association list with distinct keys. -/
abbrev GoMap (V : Type) := List (String × V)

/-- The comma-ok lookup `v, ok := m[k]`: `none` when `ok` is false. -/
def mapGet {V : Type} : GoMap V → String → Option V
  | [], _ => none
  | (k', v) :: rest, k => if k' = k then some v else mapGet rest k

/-- The assignment `m[k] = v`. -/
def mapSet {V : Type} : GoMap V → String → V → GoMap V
  | [], k, v => [(k, v)]
  | (k', v') :: rest, k, v =>
    if k' = k then (k, v) :: rest else (k', v') :: mapSet rest k v

/-! ## The UPnP client (`fritzbox_upnp`), an external collaborator -/

/-- The dynamic values an `interface{}` of a `upnp.Result` can hold. -/
inductive Value where
  | nil
  | uint64 (n : Nat)
  | str (s : String)
  | bool (b : Bool)
  deriving DecidableEq, Repr

namespace upnp

/-- The type `upnp.Result`, a `map[string]interface{}`. -/
abbrev Result := GoMap Value

/-- An invocable action: `Call()` and `CallParam(name, value)` return a result
and an error (`none` is Go's `nil` error) and change the remote world. -/
structure Action (σ : Type) where
  Call : σ → (Result × Option String) × σ
  CallParam : String → Int → σ → (Result × Option String) × σ

/-- A service handle with its `Actions` map. -/
structure Service (σ : Type) where
  Actions : GoMap (Action σ)

/-- The catalog returned by `upnp.LoadServices`, with its `Services` map. -/
structure Root (σ : Type) where
  Services : GoMap (Service σ)

end upnp

/-- The plain index expression `result[k]`: the zero value `nil` when the key
is absent (also on a nil map). -/
def index (r : upnp.Result) (k : String) : Value :=
  match mapGet r k with
  | some v => v
  | none => Value.nil

/-- The conversion `int(tval)` of a `uint64` to a 64-bit `int`. -/
def toInt (tval : Nat) : Int :=
  if tval % 2 ^ 64 < 2 ^ 63 then ((tval % 2 ^ 64 : Nat) : Int)
  else ((tval % 2 ^ 64 : Nat) : Int) - 2 ^ 64

/-- The text `fmt.Sprint(v)` of a dynamic value. -/
def sprint : Value → String
  | Value.nil => "<nil>"
  | Value.uint64 n => toString n
  | Value.str s => s
  | Value.bool b => if b then "true" else "false"

/-! ## Data model of the plugin -/

/-- The configuration struct `Fritzbox`; `Port` is a `uint16`. -/
structure Fritzbox where
  Host : String
  Username : String
  Password : String
  Port : Nat

/-- The struct `Metric`. -/
structure Metric where
  Service : String
  Action : String
  Result : String
  Name : String
  deriving DecidableEq, Repr

/-- The struct `SubResult`; both maps are written as lists of entries. -/
structure SubResult where
  Tags : GoMap String
  Results : GoMap String
  deriving DecidableEq, Repr

/-- The struct `ComplexMetric`. -/
structure ComplexMetric where
  Service : String
  ServiceCount : Int
  Action : String
  Result : String
  Name : String
  SubAction : String
  SubResults : SubResult
  deriving DecidableEq, Repr

/-- The package-level table `metrics`. -/
def metrics : List Metric :=
  [ { Service := "urn:schemas-upnp-org:service:WANCommonInterfaceConfig:1",
      Action := "GetTotalPacketsReceived", Result := "TotalPacketsReceived",
      Name := "packets_received" },
    { Service := "urn:schemas-upnp-org:service:WANCommonInterfaceConfig:1",
      Action := "GetTotalPacketsSent", Result := "TotalPacketsSent",
      Name := "packets_sent" },
    { Service := "urn:schemas-upnp-org:service:WANCommonInterfaceConfig:1",
      Action := "GetAddonInfos", Result := "TotalBytesReceived",
      Name := "bytes_received" },
    { Service := "urn:schemas-upnp-org:service:WANCommonInterfaceConfig:1",
      Action := "GetAddonInfos", Result := "TotalBytesSent",
      Name := "bytes_sent" },
    { Service := "urn:schemas-upnp-org:service:WANCommonInterfaceConfig:1",
      Action := "GetCommonLinkProperties", Result := "PhysicalLinkStatus",
      Name := "link_status" },
    { Service := "urn:schemas-upnp-org:service:WANIPConnection:1",
      Action := "GetStatusInfo", Result := "ConnectionStatus",
      Name := "connection_status" },
    { Service := "urn:schemas-upnp-org:service:WANIPConnection:1",
      Action := "GetStatusInfo", Result := "Uptime", Name := "uptime" } ]

/-- The package-level table `complexMetrics`. -/
def complexMetrics : List ComplexMetric :=
  [ { Service := "urn:dslforum-org:service:WLANConfiguration",
      ServiceCount := 3,
      Action := "GetTotalAssociations",
      Result := "TotalAssociations",
      SubAction := "GetGenericAssociatedDeviceInfo",
      Name := "fritzbox-wifi",
      SubResults :=
        { Tags := [("wlan_device_mac", "AssociatedDeviceMACAddress"),
                   ("wlan_device_ip", "AssociatedDeviceIPAddress")],
          Results := [("wlan_device_signal", "X_AVM-DE_SignalStrength"),
                      ("wlan_device_speed", "X_AVM-DE_Speed")] } } ]

/-! ## Observable behaviour -/

/-- What `Gather` does to its collaborators: invocations of catalog actions,
named by the service and action keys they were resolved with, and records
handed to the accumulator. -/
inductive Event where
  | Call (service action : String)
  | CallParam (service action param : String) (value : Int)
  | AddFields (measurement : String) (fields : GoMap Value) (tags : GoMap String)
  deriving DecidableEq, Repr

/-- How a `Gather` invocation ends: it returns an error value (`none` is the
nil error) or it panics. -/
inductive Outcome where
  | returned (err : Option String)
  | panic
  deriving DecidableEq, Repr

/-- The local variables of `Gather`, the trace of events so far, the remote
world, and whether the goroutine has panicked. -/
structure State (σ : Type) where
  last_service : String
  last_method : String
  result : upnp.Result
  fields : GoMap Value
  trace : List Event
  world : σ
  panicked : Bool

/-- Is the event a record handed to `acc.AddFields`? -/
def Event.isRecord : Event → Bool
  | Event.AddFields _ _ _ => true
  | _ => false

/-- Is the event an invocation of `Call()` on the given service and action? -/
def Event.isCallOf (service action : String) : Event → Bool
  | Event.Call s a => decide (s = service) && decide (a = action)
  | _ => false

/-- Is the event an invocation (`Call` or `CallParam`) of a catalog action? -/
def Event.isInvocation : Event → Bool
  | Event.AddFields _ _ _ => false
  | _ => true

/-! ## `Gather` -/

/-- Body of `for _, m := range metrics` (lines 175-202). -/
def simpleStep {σ : Type} (root : upnp.Root σ) (st : State σ) (m : Metric) : State σ :=
  if m.Service ≠ st.last_service ∨ m.Action ≠ st.last_method then
    match mapGet root.Services m.Service with
    | none => st
    | some service =>
      match mapGet service.Actions m.Action with
      | none => st
      | some action =>
        let r := action.Call st.world
        let st1 : State σ :=
          { st with result := r.1.1, world := r.2,
                    trace := st.trace ++ [Event.Call m.Service m.Action] }
        match r.1.2 with
        | some _ => st1
        | none =>
          { st1 with last_service := m.Service, last_method := m.Action,
                     fields := mapSet st1.fields m.Name (index st1.result m.Result) }
  else
    { st with fields := mapSet st.fields m.Name (index st.result m.Result) }

/-- The tag map built at lines 261-267. -/
def complextags (host : String) (m : ComplexMetric) (s : Int) (result : upnp.Result) :
    GoMap String :=
  m.SubResults.Tags.foldl
    (fun tags nv => mapSet tags nv.1 (sprint (index result nv.2)))
    (mapSet (mapSet [] "service" (toString s)) "fritzbox" host)

/-- The field map built at lines 260 and 269-271. -/
def complexfields (m : ComplexMetric) (result : upnp.Result) : GoMap Value :=
  m.SubResults.Results.foldl
    (fun fields nv => mapSet fields nv.1 (index result nv.2))
    []

/-- Body of `for i := 0; i < floatval; i++` (lines 245-275). -/
def elementStep {σ : Type} (host : String) (m : ComplexMetric) (s : Int)
    (servicename : String) (service : upnp.Service σ) (st : State σ) (i : Nat) : State σ :=
  if st.panicked then st
  else
    match mapGet service.Actions m.SubAction with
    | none => { st with panicked := true }
    | some subaction =>
      let r := subaction.CallParam "NewAssociatedDeviceIndex" (i : Int) st.world
      { st with
          result := r.1.1, world := r.2,
          trace := st.trace ++
            [Event.CallParam servicename m.SubAction "NewAssociatedDeviceIndex" (i : Int),
             Event.AddFields m.Name (complexfields m r.1.1) (complextags host m s r.1.1)] }

/-- The type switch at lines 237-244: `floatval` from the count value. -/
def floatval : Value → Int
  | Value.uint64 tval => toInt tval
  | _ => 0

/-- The service key `fmt.Sprintf("%s:%v", m.Service, s)`. -/
def servicename (m : ComplexMetric) (s : Int) : String :=
  m.Service ++ ":" ++ toString s

/-- Body of `for s := 1; s <= m.ServiceCount; s++` (lines 207-278). -/
def instanceStep {σ : Type} (root : upnp.Root σ) (host : String) (m : ComplexMetric)
    (st : State σ) (s : Int) : State σ :=
  if st.panicked then st
  else if m.Service ≠ st.last_service ∨ m.Action ≠ st.last_method then
    match mapGet root.Services (servicename m s) with
    | none => st
    | some service =>
      match mapGet service.Actions m.Action with
      | none => st
      | some action =>
        let r := action.Call st.world
        let st1 : State σ :=
          { st with result := r.1.1, world := r.2,
                    trace := st.trace ++ [Event.Call (servicename m s) m.Action] }
        match r.1.2 with
        | some _ => st1
        | none =>
          match mapGet st1.result m.Result with
          | none => st1
          | some val =>
            (List.range (floatval val).toNat).foldl
              (elementStep host m s (servicename m s) service) st1
  else st

/-- The values `1, 2, ..., ServiceCount` taken by the loop variable `s`. -/
def instanceIndices (serviceCount : Int) : List Int :=
  (List.range serviceCount.toNat).map (fun (k : Nat) => (k : Int) + 1)

/-- Body of `for _, m := range complexMetrics` (lines 205-283). -/
def complexStep {σ : Type} (root : upnp.Root σ) (host : String)
    (st : State σ) (m : ComplexMetric) : State σ :=
  if st.panicked then st
  else
    let st1 := (instanceIndices m.ServiceCount).foldl (instanceStep root host m) st
    if st1.panicked then st1
    else { st1 with last_service := m.Service, last_method := m.Action }

/-- The state at line 173, after the declarations of the local variables. -/
def initState {σ : Type} (w : σ) : State σ :=
  { last_service := "", last_method := "", result := [], fields := [],
    trace := [], world := w, panicked := false }

/-- The simple collector: the loop over `metrics` followed by the single
`acc.AddFields("fritzbox", ...)` (lines 170-203). -/
def simplePhase {σ : Type} (root : upnp.Root σ) (host : String) (ms : List Metric)
    (st : State σ) : State σ :=
  let st1 := ms.foldl (simpleStep root) st
  { st1 with trace := st1.trace ++
      [Event.AddFields "fritzbox" st1.fields (mapSet [] "fritzbox" host)] }

/-- The complex collector: the loop over `complexMetrics` (lines 205-283). -/
def complexPhase {σ : Type} (root : upnp.Root σ) (host : String) (cms : List ComplexMetric)
    (st : State σ) : State σ :=
  cms.foldl (complexStep root host) st

/-- The host passed on by `Gather` (lines 142-146). -/
def effectiveHost (s : Fritzbox) : String :=
  if s.Host = "" then "fritz.box" else s.Host

/-- The port passed on by `Gather` (lines 147-151). -/
def effectivePort (s : Fritzbox) : Nat :=
  if s.Port = 0 then 49000 else s.Port

/-- What one `Gather` invocation amounts to: how it ended, what it did to its
collaborators, and the remote world it leaves. -/
structure Poll (σ : Type) where
  outcome : Outcome
  trace : List Event
  world : σ
  deriving DecidableEq, Repr

/-- The method `Fritzbox.Gather`.  The external `upnp.LoadServices` and the
package-level tables `metrics` and `complexMetrics` are arguments. -/
def Gather {σ : Type}
    (LoadServices : String → Nat → String → String → σ → Except String (upnp.Root σ) × σ)
    (ms : List Metric) (cms : List ComplexMetric) (s : Fritzbox) (w : σ) : Poll σ :=
  let host := effectiveHost s
  let port := effectivePort s
  match LoadServices host port s.Username s.Password w with
  | (Except.error err, w1) =>
    { outcome := Outcome.returned (some ("fritzbox: unable to load services: " ++ err)),
      trace := [], world := w1 }
  | (Except.ok root, w1) =>
    let st := complexPhase root host cms (simplePhase root host ms (initState w1))
    { outcome := if st.panicked then Outcome.panic else Outcome.returned none,
      trace := st.trace, world := st.world }

/-! ## Which invocation a simple spec is served by -/

/-- The invocation of `action` made in world `w0` is the one the spec `m`, which
follows the specs `pre` in the table, takes its Result from.  Either `m` is
reached with a remembered pair other than its own, and `w0` is the world in
which `m` itself calls; or `m` is reached with its own pair remembered, and
then the spec right before it has the same pair, called in world `w0` with a
remembered pair other than its own, that call succeeded, and `result` still
holds what it returned. -/
def servedAt {σ : Type} (root : upnp.Root σ) (w : σ) (pre : List Metric) (m : Metric)
    (action : upnp.Action σ) (w0 : σ) : Prop :=
  ((m.Service ≠ (pre.foldl (simpleStep root) (initState w)).last_service ∨
      m.Action ≠ (pre.foldl (simpleStep root) (initState w)).last_method) ∧
    w0 = (pre.foldl (simpleStep root) (initState w)).world) ∨
  (m.Service = (pre.foldl (simpleStep root) (initState w)).last_service ∧
    m.Action = (pre.foldl (simpleStep root) (initState w)).last_method ∧
    ∃ pre' p, pre = pre' ++ [p] ∧ p.Service = m.Service ∧ p.Action = m.Action ∧
      (p.Service ≠ (pre'.foldl (simpleStep root) (initState w)).last_service ∨
        p.Action ≠ (pre'.foldl (simpleStep root) (initState w)).last_method) ∧
      w0 = (pre'.foldl (simpleStep root) (initState w)).world ∧
      (action.Call w0).1.2 = none ∧
      (pre.foldl (simpleStep root) (initState w)).result = (action.Call w0).1.1)

/-! ## Concrete catalogs used to exercise the embedding -/

namespace demo

/-- An action whose every invocation succeeds with the same result. -/
def constAction (r : upnp.Result) : upnp.Action Unit :=
  { Call := fun w => ((r, none), w),
    CallParam := fun _ _ w => ((r, none), w) }

/-- An action whose every invocation fails; like the UPnP client it returns a
nil result together with the error. -/
def failingAction : upnp.Action Unit :=
  { Call := fun w => (([], some "connection refused"), w),
    CallParam := fun _ _ w => (([], some "connection refused"), w) }

/-- A loader that always fails. -/
def loadFails : String → Nat → String → String → Unit → Except String (upnp.Root Unit) × Unit :=
  fun _ _ _ _ w => (Except.error "no route to host", w)

/-- A loader that always returns the given catalog. -/
def loadOk {σ : Type} (root : upnp.Root σ) :
    String → Nat → String → String → σ → Except String (upnp.Root σ) × σ :=
  fun _ _ _ _ w => (Except.ok root, w)

/-- A configuration with every field at its zero value. -/
def zeroConfig : Fritzbox :=
  { Host := "", Username := "", Password := "", Port := 0 }

/-- A catalog with one WAN service answering the packet counter. -/
def wanRoot : upnp.Root Unit :=
  { Services :=
      [("urn:schemas-upnp-org:service:WANCommonInterfaceConfig:1",
        { Actions :=
            [("GetTotalPacketsReceived",
              constAction [("TotalPacketsReceived", Value.uint64 42)])] })] }

/-- An action that answers with the number of times it was invoked before; the
world is that number. -/
def countingAction : upnp.Action Nat :=
  { Call := fun w => (([("k", Value.uint64 w)], none), w + 1),
    CallParam := fun _ _ w => (([("k", Value.uint64 w)], none), w + 1) }

/-- A catalog whose only service "S" has the single action "A", which counts
its invocations. -/
def countingRoot : upnp.Root Nat :=
  { Services := [("S", { Actions := [("A", countingAction)] })] }

/-- A catalog whose service "S" has a working action "A" and an action "B"
that fails. -/
def mixedRoot : upnp.Root Unit :=
  { Services :=
      [("S", { Actions :=
          [("A", constAction [("k1", Value.uint64 1), ("k2", Value.uint64 2)]),
           ("B", failingAction)] })] }

/-- The details of one associated WLAN device. -/
def deviceInfo : upnp.Result :=
  [("AssociatedDeviceMACAddress", Value.str "AA:BB"),
   ("AssociatedDeviceIPAddress", Value.str "192.168.178.20"),
   ("X_AVM-DE_SignalStrength", Value.uint64 70),
   ("X_AVM-DE_Speed", Value.uint64 144)]

/-- A per-element action that fails for index 0, with a nil result, and
answers for every other index. -/
def flakyDeviceInfo : upnp.Action Unit :=
  { Call := fun w => (([], some "missing argument"), w),
    CallParam := fun _ i w =>
      if i = 0 then (([], some "timeout"), w) else ((deviceInfo, none), w) }

/-- A catalog with one WLAN service, numbered 1, whose count action answers
`count` and whose per-element action, when there is one, is `sub`. -/
def wlanRoot (count : Value) (sub : Option (upnp.Action Unit)) : upnp.Root Unit :=
  { Services :=
      [("urn:dslforum-org:service:WLANConfiguration:1",
        { Actions :=
            ("GetTotalAssociations", constAction [("TotalAssociations", count)]) ::
              (match sub with
               | some a => [("GetGenericAssociatedDeviceInfo", a)]
               | none => []) })] }

/-- A catalog with the WLAN services numbered 1 and 3, and none numbered 2;
each has two associated devices. -/
def wlanRoot13 : upnp.Root Unit :=
  { Services :=
      [("urn:dslforum-org:service:WLANConfiguration:1",
        { Actions :=
            [("GetTotalAssociations", constAction [("TotalAssociations", Value.uint64 2)]),
             ("GetGenericAssociatedDeviceInfo", constAction deviceInfo)] }),
       ("urn:dslforum-org:service:WLANConfiguration:3",
        { Actions :=
            [("GetTotalAssociations", constAction [("TotalAssociations", Value.uint64 2)]),
             ("GetGenericAssociatedDeviceInfo", constAction deviceInfo)] })] }

/-- A complex spec that extracts a tag named "service". -/
def serviceTagSpec : ComplexMetric :=
  { Service := "urn:dslforum-org:service:WLANConfiguration", ServiceCount := 1,
    Action := "GetTotalAssociations", Result := "TotalAssociations",
    SubAction := "GetGenericAssociatedDeviceInfo", Name := "fritzbox-wifi",
    SubResults := { Tags := [("service", "AssociatedDeviceMACAddress")], Results := [] } }

/-- The only entry of the table `complexMetrics`. -/
def wlanSpec : ComplexMetric :=
  { Service := "urn:dslforum-org:service:WLANConfiguration",
    ServiceCount := 3,
    Action := "GetTotalAssociations",
    Result := "TotalAssociations",
    SubAction := "GetGenericAssociatedDeviceInfo",
    Name := "fritzbox-wifi",
    SubResults :=
      { Tags := [("wlan_device_mac", "AssociatedDeviceMACAddress"),
                 ("wlan_device_ip", "AssociatedDeviceIPAddress")],
        Results := [("wlan_device_signal", "X_AVM-DE_SignalStrength"),
                    ("wlan_device_speed", "X_AVM-DE_Speed")] } }

/-- The answer of GetAddonInfos. -/
def addonInfos : upnp.Action Unit :=
  constAction [("TotalBytesReceived", Value.uint64 10), ("TotalBytesSent", Value.uint64 20)]

/-- The WAN service with the three counters of the table `metrics`. -/
def wanService : upnp.Service Unit :=
  { Actions :=
      [("GetTotalPacketsReceived", constAction [("TotalPacketsReceived", Value.uint64 42)]),
       ("GetTotalPacketsSent", constAction [("TotalPacketsSent", Value.uint64 17)]),
       ("GetAddonInfos", addonInfos)] }

/-- A catalog with the WAN service only. -/
def wanFullRoot : upnp.Root Unit :=
  { Services := [("urn:schemas-upnp-org:service:WANCommonInterfaceConfig:1", wanService)] }

/-- A catalog whose actions succeed with Results that lack the keys the tables
ask for: the packet counter answers under another key, and the one associated
WLAN device is described by its MAC address only. -/
def sparseRoot : upnp.Root Unit :=
  { Services :=
      [("urn:schemas-upnp-org:service:WANCommonInterfaceConfig:1",
        { Actions :=
            [("GetTotalPacketsReceived", constAction [("PacketsReceived", Value.uint64 42)])] }),
       ("urn:dslforum-org:service:WLANConfiguration:1",
        { Actions :=
            [("GetTotalAssociations", constAction [("TotalAssociations", Value.uint64 1)]),
             ("GetGenericAssociatedDeviceInfo",
              constAction [("AssociatedDeviceMACAddress", Value.str "AA:BB")])] })] }

/-- The fourth spec of the table `metrics`. -/
def bytesSent : Metric :=
  { Service := "urn:schemas-upnp-org:service:WANCommonInterfaceConfig:1",
    Action := "GetAddonInfos", Result := "TotalBytesSent", Name := "bytes_sent" }

/-- The second spec of the table `metrics`. -/
def packetsSent : Metric :=
  { Service := "urn:schemas-upnp-org:service:WANCommonInterfaceConfig:1",
    Action := "GetTotalPacketsSent", Result := "TotalPacketsSent", Name := "packets_sent" }

/-- The first spec of the table `metrics`. -/
def packetsReceived : Metric :=
  { Service := "urn:schemas-upnp-org:service:WANCommonInterfaceConfig:1",
    Action := "GetTotalPacketsReceived", Result := "TotalPacketsReceived",
    Name := "packets_received" }

/-- The state of a poll over `wlanRoot13` right after the WLAN spec has been
processed. -/
def afterWlan : State Unit :=
  complexStep wlanRoot13 "fritz.box"
    (simplePhase wlanRoot13 "fritz.box" metrics (initState ())) wlanSpec

end demo

/-! ## General facts about the loops -/

theorem mapGet_mapSet_self {V : Type} (m : GoMap V) (k : String) (v : V) :
    mapGet (mapSet m k v) k = some v := by
  induction m with
  | nil => simp [mapSet, mapGet]
  | cons p rest ih =>
    obtain ⟨k', v'⟩ := p
    by_cases h : k' = k
    · simp [mapSet, mapGet, h]
    · simp [mapSet, mapGet, h, ih]

theorem mapGet_mapSet_other {V : Type} (m : GoMap V) (k k' : String) (v : V) (h : k ≠ k') :
    mapGet (mapSet m k v) k' = mapGet m k' := by
  induction m with
  | nil => simp [mapSet, mapGet, h]
  | cons p rest ih =>
    obtain ⟨k0, v0⟩ := p
    by_cases h0 : k0 = k
    · subst h0
      simp [mapSet, mapGet, h]
    · simp only [mapSet, h0, if_false, mapGet, ih]

/-- The loop over `metrics` hands nothing to the accumulator. -/
theorem simpleStep_records {σ : Type} (root : upnp.Root σ) (st : State σ) (m : Metric) :
    (simpleStep root st m).trace.filter Event.isRecord = st.trace.filter Event.isRecord := by
  unfold simpleStep
  split
  · split
    · rfl
    · split
      · rfl
      · dsimp only
        split <;> simp [List.filter_append, Event.isRecord]
  · rfl

theorem simpleLoop_records {σ : Type} (root : upnp.Root σ) (ms : List Metric) (st : State σ) :
    (ms.foldl (simpleStep root) st).trace.filter Event.isRecord
      = st.trace.filter Event.isRecord := by
  induction ms generalizing st with
  | nil => rfl
  | cons m rest ih => simp only [List.foldl_cons, ih, simpleStep_records]

/-- A loop whose body only appends to the trace only appends to the trace. -/
theorem foldl_trace_grows {σ α : Type} (f : State σ → α → State σ)
    (hf : ∀ st a, st.trace <+: (f st a).trace) (l : List α) (st : State σ) :
    st.trace <+: (l.foldl f st).trace := by
  induction l generalizing st with
  | nil => exact List.prefix_refl _
  | cons a rest ih => exact (hf st a).trans (ih (f st a))

theorem elementStep_trace_grows {σ : Type} (host : String) (m : ComplexMetric) (s : Int)
    (sn : String) (service : upnp.Service σ) (st : State σ) (i : Nat) :
    st.trace <+: (elementStep host m s sn service st i).trace := by
  unfold elementStep
  split
  · exact List.prefix_refl _
  · split
    · exact List.prefix_refl _
    · exact List.prefix_append _ _

theorem instanceStep_trace_grows {σ : Type} (root : upnp.Root σ) (host : String)
    (m : ComplexMetric) (st : State σ) (s : Int) :
    st.trace <+: (instanceStep root host m st s).trace := by
  unfold instanceStep
  split
  · exact List.prefix_refl _
  · split
    · split
      · exact List.prefix_refl _
      · split
        · exact List.prefix_refl _
        · dsimp only
          split
          · exact List.prefix_append _ _
          · split
            · exact List.prefix_append _ _
            · refine List.IsPrefix.trans ?_ (foldl_trace_grows _
                (elementStep_trace_grows host m s _ _) _ _)
              exact List.prefix_append _ _
    · exact List.prefix_refl _

theorem complexStep_trace_grows {σ : Type} (root : upnp.Root σ) (host : String)
    (st : State σ) (m : ComplexMetric) :
    st.trace <+: (complexStep root host st m).trace := by
  unfold complexStep
  split
  · exact List.prefix_refl _
  · have h := foldl_trace_grows _ (instanceStep_trace_grows root host m)
      (instanceIndices m.ServiceCount) st
    dsimp only
    split
    · exact h
    · exact h

theorem complexPhase_trace_grows {σ : Type} (root : upnp.Root σ) (host : String)
    (cms : List ComplexMetric) (st : State σ) :
    st.trace <+: (complexPhase root host cms st).trace :=
  foldl_trace_grows _ (complexStep_trace_grows root host) cms st

theorem elementStep_last {σ : Type} (host : String) (m : ComplexMetric) (s : Int)
    (sn : String) (service : upnp.Service σ) (st : State σ) (i : Nat) :
    (elementStep host m s sn service st i).last_service = st.last_service ∧
      (elementStep host m s sn service st i).last_method = st.last_method := by
  unfold elementStep
  split
  · exact ⟨rfl, rfl⟩
  · split <;> exact ⟨rfl, rfl⟩

/-- A loop whose body leaves the remembered pair alone leaves it alone. -/
theorem foldl_last {σ α : Type} (f : State σ → α → State σ)
    (hf : ∀ st a, (f st a).last_service = st.last_service ∧
      (f st a).last_method = st.last_method) (l : List α) (st : State σ) :
    (l.foldl f st).last_service = st.last_service ∧
      (l.foldl f st).last_method = st.last_method := by
  induction l generalizing st with
  | nil => exact ⟨rfl, rfl⟩
  | cons a rest ih =>
    simp only [List.foldl_cons]
    exact ⟨(ih (f st a)).1.trans (hf st a).1, (ih (f st a)).2.trans (hf st a).2⟩

theorem instanceStep_last {σ : Type} (root : upnp.Root σ) (host : String)
    (m : ComplexMetric) (st : State σ) (s : Int) :
    (instanceStep root host m st s).last_service = st.last_service ∧
      (instanceStep root host m st s).last_method = st.last_method := by
  unfold instanceStep
  split
  · exact ⟨rfl, rfl⟩
  · split
    · split
      · exact ⟨rfl, rfl⟩
      · split
        · exact ⟨rfl, rfl⟩
        · dsimp only
          split
          · exact ⟨rfl, rfl⟩
          · split
            · exact ⟨rfl, rfl⟩
            · exact foldl_last _ (elementStep_last host m s _ _) _ _
    · exact ⟨rfl, rfl⟩

/-- With the remembered pair equal to the pair of the spec, the body of the
instance loop does nothing. -/
theorem instanceStep_hit {σ : Type} (root : upnp.Root σ) (host : String)
    (m : ComplexMetric) (st : State σ) (s : Int)
    (hS : m.Service = st.last_service) (hA : m.Action = st.last_method) :
    instanceStep root host m st s = st := by
  unfold instanceStep
  split
  · rfl
  · rw [if_neg]
    simp [hS, hA]

theorem instanceLoop_hit {σ : Type} (root : upnp.Root σ) (host : String)
    (m : ComplexMetric) (l : List Int) (st : State σ)
    (hS : m.Service = st.last_service) (hA : m.Action = st.last_method) :
    l.foldl (instanceStep root host m) st = st := by
  induction l with
  | nil => rfl
  | cons s rest ih => simp only [List.foldl_cons, instanceStep_hit root host m st s hS hA, ih]

theorem complexStep_hit {σ : Type} (root : upnp.Root σ) (host : String)
    (m : ComplexMetric) (st : State σ)
    (hS : m.Service = st.last_service) (hA : m.Action = st.last_method) :
    complexStep root host st m = st := by
  unfold complexStep
  split
  · rfl
  · simp only [instanceLoop_hit root host m _ st hS hA]
    split
    · rfl
    · cases st
      simp_all

/-- A spec that ran to its end without a panic is the remembered pair. -/
theorem complexStep_remembers {σ : Type} (root : upnp.Root σ) (host : String)
    (m : ComplexMetric) (st : State σ)
    (h : (complexStep root host st m).panicked = false) :
    m.Service = (complexStep root host st m).last_service ∧
      m.Action = (complexStep root host st m).last_method := by
  unfold complexStep at h ⊢
  split
  · rename_i hp
    rw [if_pos hp] at h
    simp [hp] at h
  · dsimp only
    split
    · rename_i hp1 hp2
      rw [if_neg hp1] at h
      dsimp only at h
      rw [if_pos hp2] at h
      simp [hp2] at h
    · exact ⟨rfl, rfl⟩

theorem complexStep_panicked {σ : Type} (root : upnp.Root σ) (host : String)
    (m : ComplexMetric) (st : State σ) (h : st.panicked = true) :
    complexStep root host st m = st := by
  unfold complexStep
  rw [if_pos h]

/-- What the body of the loop over `metrics` does when it has to call: the
service and action resolve and the remembered pair is another one. -/
theorem simpleStep_miss {σ : Type} (root : upnp.Root σ) (st : State σ) (m : Metric)
    (service : upnp.Service σ) (action : upnp.Action σ)
    (hsvc : mapGet root.Services m.Service = some service)
    (hact : mapGet service.Actions m.Action = some action)
    (hmiss : m.Service ≠ st.last_service ∨ m.Action ≠ st.last_method) :
    simpleStep root st m =
      match (action.Call st.world).1.2 with
      | some _ =>
        { st with result := (action.Call st.world).1.1, world := (action.Call st.world).2,
                  trace := st.trace ++ [Event.Call m.Service m.Action] }
      | none =>
        { st with result := (action.Call st.world).1.1, world := (action.Call st.world).2,
                  trace := st.trace ++ [Event.Call m.Service m.Action],
                  last_service := m.Service, last_method := m.Action,
                  fields := mapSet st.fields m.Name
                    (index (action.Call st.world).1.1 m.Result) } := by
  unfold simpleStep
  rw [if_pos hmiss]
  simp only [hsvc, hact]

/-- What the body of the loop over `metrics` does on a spec whose pair is the
remembered one: no lookup, no call, the field is read from `result`. -/
theorem simpleStep_hit {σ : Type} (root : upnp.Root σ) (st : State σ) (m : Metric)
    (hS : m.Service = st.last_service) (hA : m.Action = st.last_method) :
    simpleStep root st m =
      { st with fields := mapSet st.fields m.Name (index st.result m.Result) } := by
  unfold simpleStep
  rw [if_neg]
  simp [hS, hA]

theorem simpleLoop_hit {σ : Type} (root : upnp.Root σ) (run : List Metric) (st : State σ)
    (hrun : ∀ m ∈ run, m.Service = st.last_service ∧ m.Action = st.last_method) :
    (run.foldl (simpleStep root) st).trace = st.trace ∧
      (run.foldl (simpleStep root) st).world = st.world := by
  induction run generalizing st with
  | nil => exact ⟨rfl, rfl⟩
  | cons m rest ih =>
    have hm := hrun m (List.mem_cons_self _ _)
    simp only [List.foldl_cons, simpleStep_hit root st m hm.1 hm.2]
    exact ih _ (fun m' hm' => hrun m' (List.mem_cons_of_mem _ hm'))

theorem toInt_of_lt (n : Nat) (h : n < 2 ^ 63) : (floatval (Value.uint64 n)).toNat = n := by
  have h64 : n % 2 ^ 64 = n := Nat.mod_eq_of_lt (by omega)
  simp only [floatval, toInt, h64, if_pos h, Int.toNat_ofNat]

/-- The body of the element loop when the per-element action resolves. -/
theorem elementStep_ok {σ : Type} (host : String) (m : ComplexMetric) (s : Int)
    (sn : String) (service : upnp.Service σ) (sub : upnp.Action σ) (st : State σ) (i : Nat)
    (hp : st.panicked = false)
    (hsub : mapGet service.Actions m.SubAction = some sub) :
    elementStep host m s sn service st i =
      { st with
          result := (sub.CallParam "NewAssociatedDeviceIndex" (i : Int) st.world).1.1,
          world := (sub.CallParam "NewAssociatedDeviceIndex" (i : Int) st.world).2,
          trace := st.trace ++
            [Event.CallParam sn m.SubAction "NewAssociatedDeviceIndex" (i : Int),
             Event.AddFields m.Name
               (complexfields m (sub.CallParam "NewAssociatedDeviceIndex" (i : Int) st.world).1.1)
               (complextags host m s
                 (sub.CallParam "NewAssociatedDeviceIndex" (i : Int) st.world).1.1)] } := by
  unfold elementStep
  simp only [hp, hsub]
  rfl

/-- A loop of map assignments does not touch a key it never assigns. -/
theorem assignLoop_other {V : Type} (f : String × String → V) (l : GoMap String)
    (acc : GoMap V) (key : String) (h : ∀ nv ∈ l, nv.1 ≠ key) :
    mapGet (l.foldl (fun acc nv => mapSet acc nv.1 (f nv)) acc) key = mapGet acc key := by
  induction l generalizing acc with
  | nil => rfl
  | cons nv rest ih =>
    simp only [List.foldl_cons]
    rw [ih _ (fun x hx => h x (List.mem_cons_of_mem _ hx)),
      mapGet_mapSet_other _ _ _ _ (h nv (List.mem_cons_self _ _))]

theorem complextags_service (host : String) (m : ComplexMetric) (s : Int) (r : upnp.Result)
    (h : ∀ nv ∈ m.SubResults.Tags, nv.1 ≠ "service") :
    mapGet (complextags host m s r) "service" = some (toString s) := by
  unfold complextags
  rw [assignLoop_other (fun nv => sprint (index r nv.2)) _ _ "service" h,
    mapGet_mapSet_other _ _ _ _ (by decide), mapGet_mapSet_self]

/-- The element loop when the per-element action resolves: `n` invocations
with the indices in ascending order, each followed by its record. -/
theorem elementLoop_spec {σ : Type} (host : String) (m : ComplexMetric) (s : Int)
    (sn : String) (service : upnp.Service σ) (sub : upnp.Action σ)
    (hsub : mapGet service.Actions m.SubAction = some sub)
    (n : Nat) (st : State σ) (hp : st.panicked = false) :
    ∃ new : List Event,
      ((List.range n).foldl (elementStep host m s sn service) st).trace = st.trace ++ new ∧
      ((List.range n).foldl (elementStep host m s sn service) st).panicked = false ∧
      new.filter Event.isInvocation
        = (List.range n).map
            (fun (j : Nat) =>
              Event.CallParam sn m.SubAction "NewAssociatedDeviceIndex" (j : Int)) ∧
      (new.filter Event.isRecord).length = n ∧
      ∀ e ∈ new, e.isRecord = true →
        ∃ fields tags, e = Event.AddFields m.Name fields tags ∧
          ((∀ nv ∈ m.SubResults.Tags, nv.1 ≠ "service") →
            mapGet tags "service" = some (toString s)) := by
  induction n with
  | zero => exact ⟨[], by simp, by simpa using hp, by simp, by simp, by simp⟩
  | succ n ih =>
    obtain ⟨new, htr, hpan, hinv, hrec, hall⟩ := ih
    rw [List.range_succ, List.foldl_append, List.foldl_cons, List.foldl_nil,
      elementStep_ok host m s sn service sub _ n hpan hsub]
    refine ⟨new ++ [Event.CallParam sn m.SubAction "NewAssociatedDeviceIndex" (n : Int),
      Event.AddFields m.Name
        (complexfields m (sub.CallParam "NewAssociatedDeviceIndex" (n : Int)
          ((List.range n).foldl (elementStep host m s sn service) st).world).1.1)
        (complextags host m s (sub.CallParam "NewAssociatedDeviceIndex" (n : Int)
          ((List.range n).foldl (elementStep host m s sn service) st).world).1.1)],
      ?_, hpan, ?_, ?_, ?_⟩
    · simp only [htr, List.append_assoc]
    · simp [List.filter_append, hinv, Event.isInvocation]
    · simp [List.filter_append, hrec, Event.isRecord]
    · intro e he hre
      rcases List.mem_append.1 he with h1 | h1
      · exact hall e h1 hre
      · simp only [List.mem_cons, List.mem_singleton, List.not_mem_nil, or_false] at h1
        rcases h1 with h1 | h1
        · subst h1
          simp [Event.isRecord] at hre
        · exact ⟨_, _, h1, complextags_service host m s _⟩

/-- The body of the instance loop when everything up to the count resolves. -/
theorem instanceStep_ok {σ : Type} (root : upnp.Root σ) (host : String) (m : ComplexMetric)
    (st : State σ) (s : Int) (service : upnp.Service σ) (action : upnp.Action σ) (val : Value)
    (hp : st.panicked = false)
    (hmiss : m.Service ≠ st.last_service ∨ m.Action ≠ st.last_method)
    (hsvc : mapGet root.Services (servicename m s) = some service)
    (hact : mapGet service.Actions m.Action = some action)
    (hcall : (action.Call st.world).1.2 = none)
    (hcount : mapGet (action.Call st.world).1.1 m.Result = some val) :
    instanceStep root host m st s =
      (List.range (floatval val).toNat).foldl
        (elementStep host m s (servicename m s) service)
        { st with result := (action.Call st.world).1.1, world := (action.Call st.world).2,
                  trace := st.trace ++ [Event.Call (servicename m s) m.Action] } := by
  unfold instanceStep
  rw [if_neg (by simp [hp]), if_pos hmiss]
  simp only [hsvc, hact, hcall, hcount]

/-- The body of the loop over `metrics` either leaves `fields` alone or writes
the one entry `fields[m.Name] = result[m.Result]`. -/
theorem simpleStep_fields {σ : Type} (root : upnp.Root σ) (st : State σ) (m : Metric) :
    (simpleStep root st m).fields = st.fields ∨
      (simpleStep root st m).fields
        = mapSet st.fields m.Name (index (simpleStep root st m).result m.Result) := by
  unfold simpleStep
  split
  · split
    · exact Or.inl rfl
    · split
      · exact Or.inl rfl
      · dsimp only
        split
        · exact Or.inl rfl
        · exact Or.inr rfl
  · exact Or.inr rfl

/-- Every key of a map filled by a loop of assignments was assigned by an
entry of the loop or was there before. -/
theorem assignLoop_origin {V : Type} (f : String × String → V) (l : GoMap String)
    (acc : GoMap V) (key : String) (v : V)
    (h : mapGet (l.foldl (fun acc nv => mapSet acc nv.1 (f nv)) acc) key = some v) :
    (∃ nv ∈ l, nv.1 = key ∧ v = f nv) ∨ mapGet acc key = some v := by
  induction l generalizing acc with
  | nil => exact Or.inr h
  | cons nv rest ih =>
    simp only [List.foldl_cons] at h
    rcases ih _ h with ⟨x, hx, hk, hv⟩ | h'
    · exact Or.inl ⟨x, List.mem_cons_of_mem _ hx, hk, hv⟩
    · by_cases hk : nv.1 = key
      · rw [← hk, mapGet_mapSet_self] at h'
        exact Or.inl ⟨nv, List.mem_cons_self _ _, hk, (Option.some.inj h').symm⟩
      · rw [mapGet_mapSet_other _ _ _ _ hk] at h'
        exact Or.inr h'

/-- Every entry of a loop of assignments leaves its key in the map. -/
theorem assignLoop_present {V : Type} (f : String × String → V) (l : GoMap String)
    (acc : GoMap V) :
    ∀ nv ∈ l, ∃ v, mapGet (l.foldl (fun acc nv => mapSet acc nv.1 (f nv)) acc) nv.1 = some v := by
  induction l generalizing acc with
  | nil => intro nv h; exact absurd h (List.not_mem_nil _)
  | cons x rest ih =>
    intro nv h
    simp only [List.foldl_cons]
    by_cases hk : ∃ y ∈ rest, y.1 = nv.1
    · obtain ⟨y, hy, hyk⟩ := hk
      rw [← hyk]
      exact ih _ y hy
    · have hx : nv = x := by
        rcases List.mem_cons.1 h with h1 | h1
        · exact h1
        · exact absurd ⟨nv, h1, rfl⟩ hk
      subst hx
      refine ⟨f nv, ?_⟩
      rw [assignLoop_other f rest _ nv.1 (fun y hy hyk => hk ⟨y, hy, hyk⟩),
        mapGet_mapSet_self]

/-- The round trip of the packet counter: a Result {"TotalPacketsReceived": 42}
and the table `metrics` give the fields {"packets_received": 42}. -/
theorem packets_received_roundtrip :
    Gather (demo.loadOk demo.wanRoot) metrics [] demo.zeroConfig ()
      = { outcome := Outcome.returned none,
          trace := [Event.Call "urn:schemas-upnp-org:service:WANCommonInterfaceConfig:1"
              "GetTotalPacketsReceived",
            Event.AddFields "fritzbox" [("packets_received", Value.uint64 42)]
              [("fritzbox", "fritz.box")]],
          world := () } := by
  decide

/-- A spec reached with a remembered pair other than its own, whose service
and action resolve: the action is invoked once, `result` becomes what that
invocation returned, and the field is written from it on success and not
written on failure. -/
theorem miss_invokes_again {σ : Type} (root : upnp.Root σ) (w : σ)
    (pre : List Metric) (m : Metric)
    (service : upnp.Service σ) (action : upnp.Action σ)
    (hsvc : mapGet root.Services m.Service = some service)
    (hact : mapGet service.Actions m.Action = some action)
    (hmiss : m.Service ≠ (pre.foldl (simpleStep root) (initState w)).last_service ∨
      m.Action ≠ (pre.foldl (simpleStep root) (initState w)).last_method) :
    ((pre ++ [m]).foldl (simpleStep root) (initState w)).trace
        = (pre.foldl (simpleStep root) (initState w)).trace
          ++ [Event.Call m.Service m.Action] ∧
      ((pre ++ [m]).foldl (simpleStep root) (initState w)).result
        = (action.Call (pre.foldl (simpleStep root) (initState w)).world).1.1 ∧
      ((action.Call (pre.foldl (simpleStep root) (initState w)).world).1.2 = none →
        ((pre ++ [m]).foldl (simpleStep root) (initState w)).fields
          = mapSet (pre.foldl (simpleStep root) (initState w)).fields m.Name
              (index (action.Call (pre.foldl (simpleStep root) (initState w)).world).1.1
                m.Result)) ∧
      ((action.Call (pre.foldl (simpleStep root) (initState w)).world).1.2 ≠ none →
        ((pre ++ [m]).foldl (simpleStep root) (initState w)).fields
          = (pre.foldl (simpleStep root) (initState w)).fields) := by
  rw [List.foldl_append, List.foldl_cons, List.foldl_nil,
    simpleStep_miss root _ m service action hsvc hact hmiss]
  cases h : (action.Call (pre.foldl (simpleStep root) (initState w)).world).1.2 <;> simp

/-! ## Tables other than `metrics` -/

/-- A table other than `metrics`, in which a pair comes back after another
one: the second spec's action "B" fails, which overwrites `result` with the
nil Result of the failed call but leaves the remembered pair at ("S", "A");
the third spec is then served from the overwritten `result` and the record
maps its field "f3" to nil, not to the 2 that "A" returns.  The table
`metrics` has no such position (`metrics_positions`). -/
theorem failed_call_clobbers_cached_result :
    (["f1", "f2", "f3"] : List String).Nodup ∧
      mapGet demo.mixedRoot.Services "S"
        = some { Actions :=
            [("A", demo.constAction [("k1", Value.uint64 1), ("k2", Value.uint64 2)]),
             ("B", demo.failingAction)] } ∧
      ((demo.constAction [("k1", Value.uint64 1), ("k2", Value.uint64 2)]).Call ()).1
        = ([("k1", Value.uint64 1), ("k2", Value.uint64 2)], none) ∧
      mapGet [("k1", Value.uint64 1), ("k2", Value.uint64 2)] "k2" = some (Value.uint64 2) ∧
      Gather (demo.loadOk demo.mixedRoot)
          [ { Service := "S", Action := "A", Result := "k1", Name := "f1" },
            { Service := "S", Action := "B", Result := "k", Name := "f2" },
            { Service := "S", Action := "A", Result := "k2", Name := "f3" } ]
          [] demo.zeroConfig ()
        = { outcome := Outcome.returned none,
            trace := [Event.Call "S" "A", Event.Call "S" "B",
              Event.AddFields "fritzbox" [("f1", Value.uint64 1), ("f3", Value.nil)]
                [("fritzbox", "fritz.box")]],
            world := () } := by
  refine ⟨by decide, rfl, rfl, by decide, by decide⟩

/-- A table other than `metrics`, in which a pair comes back after a spec that
is skipped: in the table A, X, A over a catalog whose action "A" answers with
the number of its earlier invocations, "A" is invoked once in the whole poll
and the third spec's field "f3" carries the answer 0 of that invocation.  The
table `metrics` has no such position (`metrics_positions`). -/
theorem nonadjacent_repeat_is_served_from_cache :
    ("S", "A") ≠ ("X", "B") ∧
      mapGet demo.countingRoot.Services "S" = some { Actions := [("A", demo.countingAction)] } ∧
      Gather (demo.loadOk demo.countingRoot)
          [ { Service := "S", Action := "A", Result := "k", Name := "f1" },
            { Service := "X", Action := "B", Result := "k", Name := "f2" },
            { Service := "S", Action := "A", Result := "k", Name := "f3" } ]
          [] demo.zeroConfig 0
        = { outcome := Outcome.returned none,
            trace := [Event.Call "S" "A",
              Event.AddFields "fritzbox" [("f1", Value.uint64 0), ("f3", Value.uint64 0)]
                [("fritzbox", "fritz.box")]],
            world := 1 } := by
  refine ⟨by decide, rfl, by decide⟩

/-! ## The table `metrics` -/

/-- Specs with other field names leave an entry of `fields` as it is. -/
theorem simpleLoop_fields_other {σ : Type} (root : upnp.Root σ) (post : List Metric)
    (st : State σ) (k : String) (h : ∀ x ∈ post, x.Name ≠ k) :
    mapGet (post.foldl (simpleStep root) st).fields k = mapGet st.fields k := by
  induction post generalizing st with
  | nil => rfl
  | cons x rest ih =>
    rw [List.foldl_cons, ih _ (fun y hy => h y (List.mem_cons_of_mem _ hy))]
    rcases simpleStep_fields root st x with hf | hf
    · rw [hf]
    · rw [hf, mapGet_mapSet_other _ _ _ _ (h x (List.mem_cons_self _ _))]

/-- A step that is reached with another pair remembered and leaves the pair of
its spec remembered has resolved the spec and called its action with success;
`result` is what that call returned. -/
theorem miss_then_remembered {σ : Type} (root : upnp.Root σ) (st : State σ) (p : Metric)
    (hmiss : p.Service ≠ st.last_service ∨ p.Action ≠ st.last_method)
    (hS : (simpleStep root st p).last_service = p.Service)
    (hA : (simpleStep root st p).last_method = p.Action) :
    ∃ service action, mapGet root.Services p.Service = some service ∧
      mapGet service.Actions p.Action = some action ∧
      (action.Call st.world).1.2 = none ∧
      (simpleStep root st p).result = (action.Call st.world).1.1 := by
  have hne : ¬ (st.last_service = p.Service ∧ st.last_method = p.Action) := by
    rintro ⟨h1, h2⟩
    rcases hmiss with h | h
    · exact h h1.symm
    · exact h h2.symm
  cases hsvc : mapGet root.Services p.Service with
  | none =>
    have hst : simpleStep root st p = st := by
      unfold simpleStep
      rw [if_pos hmiss]
      simp only [hsvc]
    rw [hst] at hS hA
    exact absurd ⟨hS, hA⟩ hne
  | some service =>
    cases hact : mapGet service.Actions p.Action with
    | none =>
      have hst : simpleStep root st p = st := by
        unfold simpleStep
        rw [if_pos hmiss]
        simp only [hsvc, hact]
      rw [hst] at hS hA
      exact absurd ⟨hS, hA⟩ hne
    | some action =>
      rw [simpleStep_miss root st p service action hsvc hact hmiss] at hS hA ⊢
      cases herr : (action.Call st.world).1.2 with
      | some e =>
        simp only [herr] at hS hA
        exact absurd ⟨hS, hA⟩ hne
      | none =>
        exact ⟨service, action, rfl, hact, herr, by simp only [herr]⟩

/-- The remembered pair is the initial pair of empty strings or the pair of a
spec processed so far. -/
theorem last_mem {σ : Type} (root : upnp.Root σ) (w : σ) (pre : List Metric) :
    ((pre.foldl (simpleStep root) (initState w)).last_service = "" ∧
      (pre.foldl (simpleStep root) (initState w)).last_method = "") ∨
    ∃ q ∈ pre, q.Service = (pre.foldl (simpleStep root) (initState w)).last_service ∧
      q.Action = (pre.foldl (simpleStep root) (initState w)).last_method := by
  induction pre using List.reverseRecOn with
  | nil => exact Or.inl ⟨rfl, rfl⟩
  | append_singleton l a ih =>
    rw [List.foldl_append, List.foldl_cons, List.foldl_nil]
    by_cases hkeep :
        (simpleStep root (l.foldl (simpleStep root) (initState w)) a).last_service
            = (l.foldl (simpleStep root) (initState w)).last_service ∧
          (simpleStep root (l.foldl (simpleStep root) (initState w)) a).last_method
            = (l.foldl (simpleStep root) (initState w)).last_method
    · rw [hkeep.1, hkeep.2]
      rcases ih with h | ⟨q, hq, h⟩
      · exact Or.inl h
      · exact Or.inr ⟨q, List.mem_append_left _ hq, h⟩
    · refine Or.inr ⟨a, List.mem_append_right _ (List.mem_singleton_self a), ?_⟩
      revert hkeep
      unfold simpleStep
      split
      · split
        · intro h; exact absurd ⟨rfl, rfl⟩ h
        · split
          · intro h; exact absurd ⟨rfl, rfl⟩ h
          · dsimp only
            split
            · intro h; exact absurd ⟨rfl, rfl⟩ h
            · intro _; exact ⟨rfl, rfl⟩
      · intro h; exact absurd ⟨rfl, rfl⟩ h

/-- A spec whose pair is not the pair of empty strings and occurs nowhere
before it is reached with another pair remembered. -/
theorem fresh_is_miss {σ : Type} (root : upnp.Root σ) (w : σ) (pre : List Metric) (m : Metric)
    (hne : m.Service ≠ "" ∨ m.Action ≠ "")
    (hfresh : ∀ q ∈ pre, q.Service ≠ m.Service ∨ q.Action ≠ m.Action) :
    m.Service ≠ (pre.foldl (simpleStep root) (initState w)).last_service ∨
      m.Action ≠ (pre.foldl (simpleStep root) (initState w)).last_method := by
  by_contra hcon
  have hS : m.Service = (pre.foldl (simpleStep root) (initState w)).last_service := by
    by_contra h; exact hcon (Or.inl h)
  have hA : m.Action = (pre.foldl (simpleStep root) (initState w)).last_method := by
    by_contra h; exact hcon (Or.inr h)
  rcases last_mem root w pre with ⟨h1, h2⟩ | ⟨q, hq, h1, h2⟩
  · rcases hne with h | h
    · exact h (hS.trans h1)
    · exact h (hA.trans h2)
  · rcases hfresh q hq with h | h
    · exact h (h1.trans hS.symm)
    · exact h (h2.trans hA.symm)

/-- The positions of the table `metrics`: a spec either has a pair that occurs
nowhere before it, or it directly follows the one spec with its pair, whose
pair occurs nowhere before that one.  No spec has the pair of empty strings. -/
theorem metrics_positions (pre post : List Metric) (m : Metric)
    (hpos : metrics = pre ++ m :: post) :
    (m.Service ≠ "" ∨ m.Action ≠ "") ∧
    ((∀ q ∈ pre, q.Service ≠ m.Service ∨ q.Action ≠ m.Action) ∨
      ∃ pre' p, pre = pre' ++ [p] ∧ p.Service = m.Service ∧ p.Action = m.Action ∧
        ∀ q ∈ pre', q.Service ≠ p.Service ∨ q.Action ≠ p.Action) := by
  have hlen : pre.length < 7 := by
    have h := congrArg List.length hpos
    simp [metrics] at h
    omega
  have hpre : pre = metrics.take pre.length := by
    rw [hpos, List.take_left]
  have hm : m :: post = metrics.drop pre.length := by
    rw [hpos, List.drop_left]
  generalize pre.length = i at hlen hpre hm
  have hcases : i = 0 ∨ i = 1 ∨ i = 2 ∨ i = 3 ∨ i = 4 ∨ i = 5 ∨ i = 6 := by omega
  rcases hcases with rfl | rfl | rfl | rfl | rfl | rfl | rfl
  · obtain ⟨rfl, -⟩ := List.cons.inj hm
    subst hpre
    exact ⟨by decide, Or.inl (by decide)⟩
  · obtain ⟨rfl, -⟩ := List.cons.inj hm
    subst hpre
    exact ⟨by decide, Or.inl (by decide)⟩
  · obtain ⟨rfl, -⟩ := List.cons.inj hm
    subst hpre
    exact ⟨by decide, Or.inl (by decide)⟩
  · obtain ⟨rfl, -⟩ := List.cons.inj hm
    subst hpre
    exact ⟨by decide, Or.inr ⟨metrics.take 2, metrics.getD 2 ⟨"", "", "", ""⟩,
      by decide, by decide, by decide, by decide⟩⟩
  · obtain ⟨rfl, -⟩ := List.cons.inj hm
    subst hpre
    exact ⟨by decide, Or.inl (by decide)⟩
  · obtain ⟨rfl, -⟩ := List.cons.inj hm
    subst hpre
    exact ⟨by decide, Or.inl (by decide)⟩
  · obtain ⟨rfl, -⟩ := List.cons.inj hm
    subst hpre
    exact ⟨by decide, Or.inr ⟨metrics.take 5, metrics.getD 5 ⟨"", "", "", ""⟩,
      by decide, by decide, by decide, by decide⟩⟩

/-- On the table `metrics` every spec that resolves has an invocation it is
served by. -/
theorem metrics_served {σ : Type} (root : upnp.Root σ) (w : σ) (pre post : List Metric)
    (m : Metric) (service : upnp.Service σ) (action : upnp.Action σ)
    (hpos : metrics = pre ++ m :: post)
    (hsvc : mapGet root.Services m.Service = some service)
    (hact : mapGet service.Actions m.Action = some action) :
    ∃ w0, servedAt root w pre m action w0 := by
  by_cases hmiss : m.Service ≠ (pre.foldl (simpleStep root) (initState w)).last_service ∨
      m.Action ≠ (pre.foldl (simpleStep root) (initState w)).last_method
  · exact ⟨_, Or.inl ⟨hmiss, rfl⟩⟩
  · have hS : m.Service = (pre.foldl (simpleStep root) (initState w)).last_service := by
      by_contra h; exact hmiss (Or.inl h)
    have hA : m.Action = (pre.foldl (simpleStep root) (initState w)).last_method := by
      by_contra h; exact hmiss (Or.inr h)
    obtain ⟨hne, hfresh | ⟨pre', p, hpre, hpS, hpA, hfresh⟩⟩ := metrics_positions pre post m hpos
    · exact absurd (fresh_is_miss root w pre m hne hfresh) hmiss
    · have hpmiss := fresh_is_miss root w pre' p (by rw [hpS, hpA]; exact hne) hfresh
      have hst : pre.foldl (simpleStep root) (initState w)
          = simpleStep root (pre'.foldl (simpleStep root) (initState w)) p := by
        rw [hpre, List.foldl_append, List.foldl_cons, List.foldl_nil]
      obtain ⟨service', action', hsvc', hact', hok, hres⟩ :=
        miss_then_remembered root _ p hpmiss (by rw [← hst, ← hS, hpS]) (by rw [← hst, ← hA, hpA])
      rw [hpS, hsvc] at hsvc'
      obtain rfl := Option.some.inj hsvc'
      rw [hpA, hact] at hact'
      obtain rfl := Option.some.inj hact'
      exact ⟨_, Or.inr ⟨hS, hA, pre', p, hpre, hpS, hpA, hpmiss, rfl, hok, by rw [hst, hres]⟩⟩

/-- A spec served by a successful invocation has its field written from the
Result of that invocation, whether or not the result key is present; with
distinct field names the entry is still there when the loop ends. -/
theorem served_field {σ : Type} (root : upnp.Root σ) (w : σ) (pre post : List Metric)
    (m : Metric) (service : upnp.Service σ) (action : upnp.Action σ) (w0 : σ)
    (hnames : ((pre ++ m :: post).map Metric.Name).Nodup)
    (hsvc : mapGet root.Services m.Service = some service)
    (hact : mapGet service.Actions m.Action = some action)
    (hserved : servedAt root w pre m action w0)
    (hok : (action.Call w0).1.2 = none) :
    mapGet ((pre ++ m :: post).foldl (simpleStep root) (initState w)).fields m.Name
      = some (index (action.Call w0).1.1 m.Result) := by
  have hpost : ∀ x ∈ post, x.Name ≠ m.Name := by
    intro x hx heq
    rw [List.map_append, List.map_cons, List.nodup_append] at hnames
    have hcons := (List.nodup_cons.1 hnames.2.1).1
    exact hcons (heq ▸ List.mem_map_of_mem Metric.Name hx)
  rw [List.foldl_append, List.foldl_cons, simpleLoop_fields_other root post _ _ hpost]
  rcases hserved with ⟨hmiss, rfl⟩ | ⟨hS, hA, pre', p, -, -, -, -, -, -, hres⟩
  · rw [simpleStep_miss root _ m service action hsvc hact hmiss]
    simp only [hok]
    rw [mapGet_mapSet_self]
  · rw [simpleStep_hit root _ m hS hA]
    simp only []
    rw [mapGet_mapSet_self, hres]

/-- What the body of the loop over `metrics` does to `fields`: nothing, or one
assignment after a successful call of its own, or one assignment from the
remembered `result`. -/
theorem simpleStep_writes {σ : Type} (root : upnp.Root σ) (st : State σ) (m : Metric) :
    (simpleStep root st m).fields = st.fields ∨
    ((m.Service ≠ st.last_service ∨ m.Action ≠ st.last_method) ∧
      ∃ service action, mapGet root.Services m.Service = some service ∧
        mapGet service.Actions m.Action = some action ∧
        (action.Call st.world).1.2 = none ∧
        (simpleStep root st m).fields
          = mapSet st.fields m.Name (index (action.Call st.world).1.1 m.Result)) ∨
    (m.Service = st.last_service ∧ m.Action = st.last_method ∧
      (simpleStep root st m).fields = mapSet st.fields m.Name (index st.result m.Result)) := by
  by_cases hmiss : m.Service ≠ st.last_service ∨ m.Action ≠ st.last_method
  · cases hsvc : mapGet root.Services m.Service with
    | none =>
      left
      unfold simpleStep
      rw [if_pos hmiss]
      simp only [hsvc]
    | some service =>
      cases hact : mapGet service.Actions m.Action with
      | none =>
        left
        unfold simpleStep
        rw [if_pos hmiss]
        simp only [hsvc, hact]
      | some action =>
        rw [simpleStep_miss root st m service action hsvc hact hmiss]
        cases herr : (action.Call st.world).1.2 with
        | some e => left; rfl
        | none => right; left; exact ⟨hmiss, service, action, rfl, hact, herr, rfl⟩
  · have hS : m.Service = st.last_service := by
      by_contra h; exact hmiss (Or.inl h)
    have hA : m.Action = st.last_method := by
      by_contra h; exact hmiss (Or.inr h)
    right; right
    exact ⟨hS, hA, by rw [simpleStep_hit root st m hS hA]⟩

/-- Every entry of `fields` was written by a spec of the table, from its own
successful call or from the remembered `result`. -/
theorem simpleLoop_fields_source {σ : Type} (root : upnp.Root σ) (w : σ)
    (ms : List Metric) (k : String) (v : Value)
    (h : mapGet (ms.foldl (simpleStep root) (initState w)).fields k = some v) :
    ∃ pre sp post, ms = pre ++ sp :: post ∧ sp.Name = k ∧
      (((sp.Service ≠ (pre.foldl (simpleStep root) (initState w)).last_service ∨
          sp.Action ≠ (pre.foldl (simpleStep root) (initState w)).last_method) ∧
        ∃ service action, mapGet root.Services sp.Service = some service ∧
          mapGet service.Actions sp.Action = some action ∧
          (action.Call (pre.foldl (simpleStep root) (initState w)).world).1.2 = none ∧
          v = index (action.Call (pre.foldl (simpleStep root) (initState w)).world).1.1
            sp.Result) ∨
       (sp.Service = (pre.foldl (simpleStep root) (initState w)).last_service ∧
        sp.Action = (pre.foldl (simpleStep root) (initState w)).last_method ∧
        v = index (pre.foldl (simpleStep root) (initState w)).result sp.Result)) := by
  induction ms using List.reverseRecOn with
  | nil => simp [initState, mapGet] at h
  | append_singleton l a ih =>
    rw [List.foldl_append, List.foldl_cons, List.foldl_nil] at h
    have hkeep : mapGet (l.foldl (simpleStep root) (initState w)).fields k = some v →
        ∃ pre sp post, l ++ [a] = pre ++ sp :: post ∧ sp.Name = k ∧
      (((sp.Service ≠ (pre.foldl (simpleStep root) (initState w)).last_service ∨
          sp.Action ≠ (pre.foldl (simpleStep root) (initState w)).last_method) ∧
        ∃ service action, mapGet root.Services sp.Service = some service ∧
          mapGet service.Actions sp.Action = some action ∧
          (action.Call (pre.foldl (simpleStep root) (initState w)).world).1.2 = none ∧
          v = index (action.Call (pre.foldl (simpleStep root) (initState w)).world).1.1
            sp.Result) ∨
       (sp.Service = (pre.foldl (simpleStep root) (initState w)).last_service ∧
        sp.Action = (pre.foldl (simpleStep root) (initState w)).last_method ∧
        v = index (pre.foldl (simpleStep root) (initState w)).result sp.Result)) := by
      intro h'
      obtain ⟨pre, sp, post, hl, hk, hv⟩ := ih h'
      exact ⟨pre, sp, post ++ [a], by simp [hl], hk, hv⟩
    rcases simpleStep_writes root (l.foldl (simpleStep root) (initState w)) a with
      hf | ⟨hmiss, service, action, hsvc, hact, hok, hf⟩ | ⟨hS, hA, hf⟩
    · rw [hf] at h
      exact hkeep h
    · rw [hf] at h
      by_cases hk : a.Name = k
      · subst hk
        rw [mapGet_mapSet_self] at h
        exact ⟨l, a, [], rfl, rfl,
          Or.inl ⟨hmiss, service, action, hsvc, hact, hok, (Option.some.inj h).symm⟩⟩
      · rw [mapGet_mapSet_other _ _ _ _ hk] at h
        exact hkeep h
    · rw [hf] at h
      by_cases hk : a.Name = k
      · subst hk
        rw [mapGet_mapSet_self] at h
        exact ⟨l, a, [], rfl, rfl, Or.inr ⟨hS, hA, (Option.some.inj h).symm⟩⟩
      · rw [mapGet_mapSet_other _ _ _ _ hk] at h
        exact hkeep h

/-- On the table `metrics` every entry of `fields` was written by a spec that
resolves and is served by a successful invocation, from the Result of that
invocation. -/
theorem metrics_fields_source {σ : Type} (root : upnp.Root σ) (w : σ)
    (k : String) (v : Value)
    (h : mapGet (metrics.foldl (simpleStep root) (initState w)).fields k = some v) :
    ∃ pre sp post service action w0, metrics = pre ++ sp :: post ∧ sp.Name = k ∧
      mapGet root.Services sp.Service = some service ∧
      mapGet service.Actions sp.Action = some action ∧
      servedAt root w pre sp action w0 ∧
      (action.Call w0).1.2 = none ∧
      v = index (action.Call w0).1.1 sp.Result := by
  obtain ⟨pre, sp, post, hpos, hk, hcase⟩ := simpleLoop_fields_source root w metrics k v h
  rcases hcase with ⟨hmiss, service, action, hsvc, hact, hok, hv⟩ | ⟨hS, hA, hv⟩
  · exact ⟨pre, sp, post, service, action, _, hpos, hk, hsvc, hact,
      Or.inl ⟨hmiss, rfl⟩, hok, hv⟩
  · obtain ⟨hne, hfresh | ⟨pre', p, hpre, hpS, hpA, hfresh⟩⟩ :=
      metrics_positions pre post sp hpos
    · rcases fresh_is_miss root w pre sp hne hfresh with h1 | h1
      · exact absurd hS h1
      · exact absurd hA h1
    · have hpmiss := fresh_is_miss root w pre' p (by rw [hpS, hpA]; exact hne) hfresh
      have hst : pre.foldl (simpleStep root) (initState w)
          = simpleStep root (pre'.foldl (simpleStep root) (initState w)) p := by
        rw [hpre, List.foldl_append, List.foldl_cons, List.foldl_nil]
      obtain ⟨service, action, hsvc, hact, hok, hres⟩ :=
        miss_then_remembered root _ p hpmiss (by rw [← hst, ← hS, hpS]) (by rw [← hst, ← hA, hpA])
      rw [hpS] at hsvc
      rw [hpA] at hact
      refine ⟨pre, sp, post, service, action, _, hpos, hk, hsvc, hact,
        Or.inr ⟨hS, hA, pre', p, hpre, hpS, hpA, hpmiss, rfl, hok, by rw [hst, hres]⟩, hok, ?_⟩
      rw [hv, hst, hres]

/-- The only record in the trace of the simple collector carries the fields
collected by the loop. -/
theorem fritzbox_record_fields {σ : Type} (root : upnp.Root σ) (host : String) (w : σ)
    (ms : List Metric) (fields : GoMap Value) (tags : GoMap String)
    (hmem : Event.AddFields "fritzbox" fields tags
      ∈ (simplePhase root host ms (initState w)).trace) :
    fields = (ms.foldl (simpleStep root) (initState w)).fields := by
  simp only [simplePhase, List.mem_append, List.mem_singleton] at hmem
  rcases hmem with hmem | hmem
  · have hnone := simpleLoop_records root ms (initState w)
    have hin : Event.AddFields "fritzbox" fields tags ∈
        ((ms.foldl (simpleStep root) (initState w)).trace.filter Event.isRecord) :=
      List.mem_filter.2 ⟨hmem, rfl⟩
    rw [hnone] at hin
    simp [initState] at hin
  · injection hmem with _ hfields _

/-- The records in the trace of the simple collector. -/
theorem simplePhase_records {σ : Type} (root : upnp.Root σ) (host : String) (w : σ)
    (ms : List Metric) :
    (simplePhase root host ms (initState w)).trace.filter Event.isRecord
      = [Event.AddFields "fritzbox" (ms.foldl (simpleStep root) (initState w)).fields
          [("fritzbox", host)]] := by
  simp [simplePhase, List.filter_append, simpleLoop_records, Event.isRecord, initState, mapSet]

/-- The table `complexMetrics` has the one entry `demo.wlanSpec`. -/
theorem complexMetrics_eq : complexMetrics = [demo.wlanSpec] := rfl

/-! ## The claims -/

/-- C1: when `upnp.LoadServices` fails, `Gather` returns a non-nil error (the
wrapped loader error) and nothing at all reaches the collaborators: no action
is invoked and `AddFields` is never called. -/
theorem gather_load_failure {σ : Type}
    (LoadServices : String → Nat → String → String → σ → Except String (upnp.Root σ) × σ)
    (ms : List Metric) (cms : List ComplexMetric) (s : Fritzbox) (w w1 : σ) (err : String)
    (hload : LoadServices (effectiveHost s) (effectivePort s) s.Username s.Password w
      = (Except.error err, w1)) :
    (Gather LoadServices ms cms s w).outcome
        = Outcome.returned (some ("fritzbox: unable to load services: " ++ err)) ∧
      (Gather LoadServices ms cms s w).outcome ≠ Outcome.returned none ∧
      (Gather LoadServices ms cms s w).trace.filter Event.isRecord = [] ∧
      (Gather LoadServices ms cms s w).trace = [] := by
  simp [Gather, hload]

theorem gather_load_failure_witness :
    (Gather demo.loadFails metrics complexMetrics demo.zeroConfig ()).outcome
        = Outcome.returned (some ("fritzbox: unable to load services: " ++ "no route to host")) ∧
      (Gather demo.loadFails metrics complexMetrics demo.zeroConfig ()).outcome
        ≠ Outcome.returned none ∧
      (Gather demo.loadFails metrics complexMetrics demo.zeroConfig ()).trace.filter
        Event.isRecord = [] ∧
      (Gather demo.loadFails metrics complexMetrics demo.zeroConfig ()).trace = [] :=
  gather_load_failure demo.loadFails metrics complexMetrics demo.zeroConfig () ()
    "no route to host" rfl

/-- C9: when the catalog loads, the simple collector hands exactly one record
to the accumulator, whatever the table and the catalog: it is named
"fritzbox", carries the fields collected by the loop, and its tag map is
exactly {fritzbox: host} with host the configured host or "fritz.box" when
that is empty; the trace of the whole poll starts with the trace of the simple
collector, so the record precedes everything the complex collector does. -/
theorem simple_collector_one_record {σ : Type}
    (LoadServices : String → Nat → String → String → σ → Except String (upnp.Root σ) × σ)
    (ms : List Metric) (cms : List ComplexMetric) (s : Fritzbox) (w w1 : σ)
    (root : upnp.Root σ)
    (hload : LoadServices (effectiveHost s) (effectivePort s) s.Username s.Password w
      = (Except.ok root, w1)) :
    (simplePhase root (effectiveHost s) ms (initState w1)).trace.filter Event.isRecord
        = [Event.AddFields "fritzbox" (ms.foldl (simpleStep root) (initState w1)).fields
            [("fritzbox", if s.Host = "" then "fritz.box" else s.Host)]] ∧
      ∃ post, (Gather LoadServices ms cms s w).trace
        = (simplePhase root (effectiveHost s) ms (initState w1)).trace ++ post := by
  constructor
  · simp [simplePhase, List.filter_append, simpleLoop_records, Event.isRecord, initState,
      mapSet, effectiveHost]
  · obtain ⟨post, hpost⟩ := complexPhase_trace_grows root (effectiveHost s) cms
      (simplePhase root (effectiveHost s) ms (initState w1))
    exact ⟨post, by simp [Gather, hload, hpost]⟩

theorem simple_collector_one_record_witness :
    (simplePhase demo.wanRoot (effectiveHost demo.zeroConfig) metrics (initState ())).trace.filter
        Event.isRecord
        = [Event.AddFields "fritzbox"
            (metrics.foldl (simpleStep demo.wanRoot) (initState ())).fields
            [("fritzbox", if demo.zeroConfig.Host = "" then "fritz.box"
              else demo.zeroConfig.Host)]] ∧
      ∃ post, (Gather (demo.loadOk demo.wanRoot) metrics complexMetrics demo.zeroConfig ()).trace
        = (simplePhase demo.wanRoot (effectiveHost demo.zeroConfig) metrics
            (initState ())).trace ++ post :=
  simple_collector_one_record (demo.loadOk demo.wanRoot) metrics complexMetrics
    demo.zeroConfig () () demo.wanRoot rfl

/-- C10: in the complex collector the freshness check reads only the spec's
un-numbered `Service` and `Action` and the remembered pair, and no sequence of
iterations of the instance loop changes the remembered pair, so the check has
the same outcome for every instance of a spec.  A spec whose pair equals the
remembered pair when it is reached leaves the whole state as it was: no
action is invoked, no record is emitted, the world is untouched.  In
particular a spec that follows one with the same pair does nothing. -/
theorem complex_hit_skips_every_instance {σ : Type} (root : upnp.Root σ) (host : String)
    (m : ComplexMetric) (st : State σ)
    (hS : m.Service = st.last_service) (hA : m.Action = st.last_method) :
    (∀ (m0 : ComplexMetric) (st0 : State σ) (l : List Int),
        (l.foldl (instanceStep root host m0) st0).last_service = st0.last_service ∧
        (l.foldl (instanceStep root host m0) st0).last_method = st0.last_method) ∧
      (∀ s : Int, instanceStep root host m st s = st) ∧
      (complexStep root host st m).trace = st.trace ∧
      (complexStep root host st m).world = st.world ∧
      (∀ (m1 : ComplexMetric) (st0 : State σ),
        m1.Service = m.Service → m1.Action = m.Action →
        (complexPhase root host [m1, m] st0).trace = (complexPhase root host [m1] st0).trace) := by
  refine ⟨fun m0 st0 l => foldl_last _ (instanceStep_last root host m0) l st0,
    fun s => instanceStep_hit root host m st s hS hA, ?_, ?_, ?_⟩
  · rw [complexStep_hit root host m st hS hA]
  · rw [complexStep_hit root host m st hS hA]
  · intro m1 st0 h1 h2
    simp only [complexPhase, List.foldl_cons, List.foldl_nil]
    cases hp : (complexStep root host st0 m1).panicked
    · have hr := complexStep_remembers root host m1 st0 hp
      rw [complexStep_hit root host m _ (h1 ▸ hr.1) (h2 ▸ hr.2)]
    · rw [complexStep_panicked root host m _ hp]

theorem complex_hit_skips_every_instance_witness :
    (∀ (m0 : ComplexMetric) (st0 : State Unit) (l : List Int),
        (l.foldl (instanceStep demo.wlanRoot13 "fritz.box" m0) st0).last_service
          = st0.last_service ∧
        (l.foldl (instanceStep demo.wlanRoot13 "fritz.box" m0) st0).last_method
          = st0.last_method) ∧
      (∀ s : Int, instanceStep demo.wlanRoot13 "fritz.box" demo.wlanSpec demo.afterWlan s
        = demo.afterWlan) ∧
      (complexStep demo.wlanRoot13 "fritz.box" demo.afterWlan demo.wlanSpec).trace
        = demo.afterWlan.trace ∧
      (complexStep demo.wlanRoot13 "fritz.box" demo.afterWlan demo.wlanSpec).world
        = demo.afterWlan.world ∧
      (∀ (m1 : ComplexMetric) (st0 : State Unit),
        m1.Service = demo.wlanSpec.Service → m1.Action = demo.wlanSpec.Action →
        (complexPhase demo.wlanRoot13 "fritz.box" [m1, demo.wlanSpec] st0).trace
          = (complexPhase demo.wlanRoot13 "fritz.box" [m1] st0).trace) :=
  complex_hit_skips_every_instance demo.wlanRoot13 "fritz.box" demo.wlanSpec demo.afterWlan
    (by decide) (by decide)

/-- C4, counterexamples.  (1) A table that is one run of two specs for the
resolving pair ("S", "B") whose call fails: the action is invoked twice.
(2) In the table A, X, A, where the service of X is not in the catalog, the
third spec is a maximal run of its own for the resolving pair ("S", "A"), and
nothing is invoked during it: the trace after it is the trace before it. -/
theorem run_invocations_not_always_one :
    ((([ { Service := "S", Action := "B", Result := "k", Name := "f1" },
          { Service := "S", Action := "B", Result := "k", Name := "f2" } ] : List Metric).foldl
        (simpleStep demo.mixedRoot) (initState ())).trace.filter
          (Event.isCallOf "S" "B")).length = 2 ∧
      (([ { Service := "S", Action := "A", Result := "k1", Name := "f1" },
          { Service := "X", Action := "B", Result := "k", Name := "f2" },
          { Service := "S", Action := "A", Result := "k2", Name := "f3" } ] : List Metric).foldl
        (simpleStep demo.mixedRoot) (initState ())).trace
        = (([ { Service := "S", Action := "A", Result := "k1", Name := "f1" },
          { Service := "X", Action := "B", Result := "k", Name := "f2" } ] : List Metric).foldl
        (simpleStep demo.mixedRoot) (initState ())).trace := by
  constructor <;> decide

/-- C4, amended: a run of consecutive simple specs that share a pair (S, A)
whose service and action resolve triggers exactly one invocation of that
action, and no other invocation or record, provided the remembered pair is
another one when the run starts and that first invocation succeeds. -/
theorem run_invokes_once {σ : Type} (root : upnp.Root σ) (w : σ)
    (pre run : List Metric) (S A : String)
    (service : upnp.Service σ) (action : upnp.Action σ)
    (hne : run ≠ [])
    (hrun : ∀ m ∈ run, m.Service = S ∧ m.Action = A)
    (hsvc : mapGet root.Services S = some service)
    (hact : mapGet service.Actions A = some action)
    (hmiss : S ≠ (pre.foldl (simpleStep root) (initState w)).last_service ∨
      A ≠ (pre.foldl (simpleStep root) (initState w)).last_method)
    (hok : (action.Call (pre.foldl (simpleStep root) (initState w)).world).1.2 = none) :
    ((pre ++ run).foldl (simpleStep root) (initState w)).trace
      = (pre.foldl (simpleStep root) (initState w)).trace ++ [Event.Call S A] := by
  cases run with
  | nil => exact absurd rfl hne
  | cons m rest =>
    have hm := hrun m (List.mem_cons_self _ _)
    obtain ⟨hmS, hmA⟩ := hm
    subst hmS hmA
    rw [List.foldl_append, List.foldl_cons,
      simpleStep_miss root _ m service action hsvc hact hmiss]
    simp only [hok]
    refine ((simpleLoop_hit root rest _ ?_).1).trans rfl
    intro m' hm'
    exact hrun m' (List.mem_cons_of_mem _ hm')

theorem run_invokes_once_witness :
    (([ { Service := "S", Action := "B", Result := "k", Name := "f0" } ]
        ++ [ { Service := "S", Action := "A", Result := "k1", Name := "f1" },
          { Service := "S", Action := "A", Result := "k2", Name := "f2" } ] : List Metric).foldl
        (simpleStep demo.mixedRoot) (initState ())).trace
      = (([ { Service := "S", Action := "B", Result := "k", Name := "f0" } ] : List Metric).foldl
          (simpleStep demo.mixedRoot) (initState ())).trace
          ++ [Event.Call "S" "A"] :=
  run_invokes_once demo.mixedRoot ()
    [ { Service := "S", Action := "B", Result := "k", Name := "f0" } ]
    [ { Service := "S", Action := "A", Result := "k1", Name := "f1" },
      { Service := "S", Action := "A", Result := "k2", Name := "f2" } ] "S" "A"
    { Actions :=
        [("A", demo.constAction [("k1", Value.uint64 1), ("k2", Value.uint64 2)]),
         ("B", demo.failingAction)] }
    (demo.constAction [("k1", Value.uint64 1), ("k2", Value.uint64 2)])
    (by decide) (by decide) rfl rfl (by decide) rfl

/-- C3: for every catalog and the table `metrics`, whose field names are
pairwise distinct, every spec whose service and action resolve is served by
one invocation of its action: its own call, or, when its pair is remembered,
the successful call made for the spec right before it.  When that invocation
succeeds and the Result it returned holds the spec's result key, the single
"fritzbox" record maps the spec's field name to exactly the value that Result
has for the key. -/
theorem shipped_spec_value_recorded {σ : Type} (root : upnp.Root σ) (host : String) (w : σ)
    (pre post : List Metric) (m : Metric)
    (service : upnp.Service σ) (action : upnp.Action σ)
    (hpos : metrics = pre ++ m :: post)
    (hsvc : mapGet root.Services m.Service = some service)
    (hact : mapGet service.Actions m.Action = some action) :
    (metrics.map Metric.Name).Nodup ∧
    ∃ w0, servedAt root w pre m action w0 ∧
      ∀ v, (action.Call w0).1.2 = none → mapGet (action.Call w0).1.1 m.Result = some v →
        ∃ fields,
          (simplePhase root host metrics (initState w)).trace.filter Event.isRecord
            = [Event.AddFields "fritzbox" fields [("fritzbox", host)]] ∧
          mapGet fields m.Name = some v := by
  have hnames : (metrics.map Metric.Name).Nodup := by decide
  refine ⟨hnames, ?_⟩
  obtain ⟨w0, hserved⟩ := metrics_served root w pre post m service action hpos hsvc hact
  refine ⟨w0, hserved, ?_⟩
  intro v hok hkey
  refine ⟨_, simplePhase_records root host w metrics, ?_⟩
  have hfield := served_field root w pre post m service action w0 (hpos ▸ hnames)
    hsvc hact hserved hok
  rw [← hpos] at hfield
  rw [hfield]
  simp [index, hkey]

theorem shipped_spec_value_recorded_witness :
    (metrics.map Metric.Name).Nodup ∧
    ∃ w0, servedAt demo.wanFullRoot () (metrics.take 3) demo.bytesSent demo.addonInfos w0 ∧
      ∀ v, (demo.addonInfos.Call w0).1.2 = none →
        mapGet (demo.addonInfos.Call w0).1.1 demo.bytesSent.Result = some v →
        ∃ fields,
          (simplePhase demo.wanFullRoot "fritz.box" metrics (initState ())).trace.filter
              Event.isRecord
            = [Event.AddFields "fritzbox" fields [("fritzbox", "fritz.box")]] ∧
          mapGet fields demo.bytesSent.Name = some v :=
  shipped_spec_value_recorded demo.wanFullRoot "fritz.box" () (metrics.take 3) (metrics.drop 4)
    demo.bytesSent demo.wanService demo.addonInfos (by decide) rfl rfl

/-- C5: for every catalog and the table `metrics`, whenever a spec's (service,
action) pair differs from the pair of the spec right before it in the table
(the first spec has none before it) and its service and action resolve, the
action is invoked again for that spec, exactly once, and no earlier result is
reused: `result` becomes what that invocation returned, the spec's field is
written from that new Result when the invocation succeeds and is not written
at all when it fails. -/
theorem differing_spec_invokes_again {σ : Type} (root : upnp.Root σ) (w : σ)
    (pre post : List Metric) (m : Metric)
    (service : upnp.Service σ) (action : upnp.Action σ)
    (hpos : metrics = pre ++ m :: post)
    (hdiff : ∀ p, pre.getLast? = some p → p.Service ≠ m.Service ∨ p.Action ≠ m.Action)
    (hsvc : mapGet root.Services m.Service = some service)
    (hact : mapGet service.Actions m.Action = some action) :
    ((pre ++ [m]).foldl (simpleStep root) (initState w)).trace
        = (pre.foldl (simpleStep root) (initState w)).trace
          ++ [Event.Call m.Service m.Action] ∧
      ((pre ++ [m]).foldl (simpleStep root) (initState w)).result
        = (action.Call (pre.foldl (simpleStep root) (initState w)).world).1.1 ∧
      ((action.Call (pre.foldl (simpleStep root) (initState w)).world).1.2 = none →
        ((pre ++ [m]).foldl (simpleStep root) (initState w)).fields
          = mapSet (pre.foldl (simpleStep root) (initState w)).fields m.Name
              (index (action.Call (pre.foldl (simpleStep root) (initState w)).world).1.1
                m.Result)) ∧
      ((action.Call (pre.foldl (simpleStep root) (initState w)).world).1.2 ≠ none →
        ((pre ++ [m]).foldl (simpleStep root) (initState w)).fields
          = (pre.foldl (simpleStep root) (initState w)).fields) := by
  obtain ⟨hne, hfresh | ⟨pre', p, hpre, hpS, hpA, -⟩⟩ := metrics_positions pre post m hpos
  · exact miss_invokes_again root w pre m service action hsvc hact
      (fresh_is_miss root w pre m hne hfresh)
  · have hlast : pre.getLast? = some p := by
      rw [hpre, List.getLast?_append]
      rfl
    rcases hdiff p hlast with h | h
    · exact absurd hpS h
    · exact absurd hpA h

theorem differing_spec_invokes_again_witness :
    (([demo.packetsReceived] ++ [demo.packetsSent]).foldl
        (simpleStep demo.wanFullRoot) (initState ())).trace
      = ([demo.packetsReceived].foldl (simpleStep demo.wanFullRoot) (initState ())).trace
        ++ [Event.Call demo.packetsSent.Service demo.packetsSent.Action] :=
  (differing_spec_invokes_again demo.wanFullRoot () [demo.packetsReceived] (metrics.drop 2)
    demo.packetsSent demo.wanService
    (demo.constAction [("TotalPacketsSent", Value.uint64 17)])
    (by decide) (fun p h => by cases h; decide) rfl rfl).1

/-- C2, the code at a failing input: with the tables of the source and a
catalog whose service WLANConfiguration:1 reports one associated device but
has no action GetGenericAssociatedDeviceInfo, `Gather` does not return: after
the "fritzbox" record and the count call it panics on the nil `subaction`. -/
theorem missing_subaction_panics :
    Gather (demo.loadOk (demo.wlanRoot (Value.uint64 1) none)) metrics complexMetrics
        demo.zeroConfig ()
      = { outcome := Outcome.panic,
          trace := [Event.AddFields "fritzbox" [] [("fritzbox", "fritz.box")],
            Event.Call "urn:dslforum-org:service:WLANConfiguration:1" "GetTotalAssociations"],
          world := () } := by
  decide

/-- C7, the code at a failing input: with the tables of the source and a
catalog whose service WLANConfiguration:1 reports two associated devices and
whose per-element action fails for index 0, two "fritzbox-wifi" records are
emitted: the one for index 0 is built from the nil result of the failed
invocation. -/
theorem failed_element_still_emits_record :
    Gather (demo.loadOk (demo.wlanRoot (Value.uint64 2) (some demo.flakyDeviceInfo)))
        metrics complexMetrics demo.zeroConfig ()
      = { outcome := Outcome.returned none,
          trace := [Event.AddFields "fritzbox" [] [("fritzbox", "fritz.box")],
            Event.Call "urn:dslforum-org:service:WLANConfiguration:1" "GetTotalAssociations",
            Event.CallParam "urn:dslforum-org:service:WLANConfiguration:1"
              "GetGenericAssociatedDeviceInfo" "NewAssociatedDeviceIndex" 0,
            Event.AddFields "fritzbox-wifi"
              [("wlan_device_signal", Value.nil), ("wlan_device_speed", Value.nil)]
              [("service", "1"), ("fritzbox", "fritz.box"),
               ("wlan_device_mac", "<nil>"), ("wlan_device_ip", "<nil>")],
            Event.CallParam "urn:dslforum-org:service:WLANConfiguration:1"
              "GetGenericAssociatedDeviceInfo" "NewAssociatedDeviceIndex" 1,
            Event.AddFields "fritzbox-wifi"
              [("wlan_device_signal", Value.uint64 70), ("wlan_device_speed", Value.uint64 144)]
              [("service", "1"), ("fritzbox", "fritz.box"),
               ("wlan_device_mac", "AA:BB"), ("wlan_device_ip", "192.168.178.20")]],
          world := () } := by
  decide

/-- C6, counterexamples.  (1) With the tables of the source and a count action
that returns the unsigned integer 2^63, `int(tval)` is negative and the
per-element action, which resolves, is never invoked and no record is emitted.
(2) With a spec that extracts a tag named "service", the record of instance 1
carries the extracted value under "service", not "1". -/
theorem element_count_and_service_tag_fail :
    Gather (demo.loadOk (demo.wlanRoot (Value.uint64 (2 ^ 63)) (some (demo.constAction demo.deviceInfo))))
        metrics complexMetrics demo.zeroConfig ()
      = { outcome := Outcome.returned none,
          trace := [Event.AddFields "fritzbox" [] [("fritzbox", "fritz.box")],
            Event.Call "urn:dslforum-org:service:WLANConfiguration:1" "GetTotalAssociations"],
          world := () } ∧
    Gather (demo.loadOk (demo.wlanRoot (Value.uint64 1) (some (demo.constAction demo.deviceInfo))))
        [] [demo.serviceTagSpec] demo.zeroConfig ()
      = { outcome := Outcome.returned none,
          trace := [Event.AddFields "fritzbox" [] [("fritzbox", "fritz.box")],
            Event.Call "urn:dslforum-org:service:WLANConfiguration:1" "GetTotalAssociations",
            Event.CallParam "urn:dslforum-org:service:WLANConfiguration:1"
              "GetGenericAssociatedDeviceInfo" "NewAssociatedDeviceIndex" 0,
            Event.AddFields "fritzbox-wifi" []
              [("service", "AA:BB"), ("fritzbox", "fritz.box")]],
          world := () } := by
  constructor <;> decide

/-- C6, amended: let a complex spec be reached with a remembered pair other
than its (`Service`, `Action`), and let `s` be one of its instance indices
1..`ServiceCount`, reached without a panic, such that the service
`Service:s` resolves, its count action resolves, succeeds and returns an
unsigned integer `N < 2^63` under the count key, and its per-element action
resolves.  Then that instance contributes to the trace one count call followed
by exactly `N` invocations of the per-element action of that service, with
the index parameter `NewAssociatedDeviceIndex` = 0, 1, ..., N-1 in that order,
and exactly `N` records, each named `Name`; when the spec extracts no tag named
"service", each record carries the tag service = decimal(s).  Nothing is
assumed about the other instances, which may be missing from the catalog. -/
theorem instance_enumerates_elements {σ : Type} (root : upnp.Root σ) (host : String)
    (m : ComplexMetric) (st : State σ) (pre post : List Int) (s : Int)
    (service : upnp.Service σ) (action sub : upnp.Action σ) (N : Nat)
    (hidx : instanceIndices m.ServiceCount = pre ++ s :: post)
    (hmiss : m.Service ≠ st.last_service ∨ m.Action ≠ st.last_method)
    (hreach : (pre.foldl (instanceStep root host m) st).panicked = false)
    (hsvc : mapGet root.Services (m.Service ++ ":" ++ toString s) = some service)
    (hact : mapGet service.Actions m.Action = some action)
    (hcall : (action.Call (pre.foldl (instanceStep root host m) st).world).1.2 = none)
    (hcount : mapGet (action.Call (pre.foldl (instanceStep root host m) st).world).1.1 m.Result
      = some (Value.uint64 N))
    (hN : N < 2 ^ 63)
    (hsub : mapGet service.Actions m.SubAction = some sub) :
    1 ≤ s ∧ s ≤ m.ServiceCount ∧
    ∃ new : List Event,
      ((pre ++ [s]).foldl (instanceStep root host m) st).trace
        = (pre.foldl (instanceStep root host m) st).trace
          ++ Event.Call (m.Service ++ ":" ++ toString s) m.Action :: new ∧
      new.filter Event.isInvocation
        = (List.range N).map (fun (j : Nat) =>
            Event.CallParam (m.Service ++ ":" ++ toString s) m.SubAction
              "NewAssociatedDeviceIndex" (j : Int)) ∧
      (new.filter Event.isRecord).length = N ∧
      ∀ e ∈ new, e.isRecord = true →
        ∃ fields tags, e = Event.AddFields m.Name fields tags ∧
          ((∀ nv ∈ m.SubResults.Tags, nv.1 ≠ "service") →
            mapGet tags "service" = some (toString s)) := by
  have hs : s ∈ instanceIndices m.ServiceCount := by
    rw [hidx]
    exact List.mem_append_right _ (List.mem_cons_self _ _)
  have hrange : 1 ≤ s ∧ s ≤ m.ServiceCount := by
    simp only [instanceIndices, List.mem_map, List.mem_range] at hs
    obtain ⟨k, hk, rfl⟩ := hs
    omega
  refine ⟨hrange.1, hrange.2, ?_⟩
  have hlast := foldl_last _ (instanceStep_last root host m) pre st
  have hmiss' : m.Service ≠ (pre.foldl (instanceStep root host m) st).last_service ∨
      m.Action ≠ (pre.foldl (instanceStep root host m) st).last_method := by
    rw [hlast.1, hlast.2]
    exact hmiss
  rw [List.foldl_append, List.foldl_cons, List.foldl_nil,
    instanceStep_ok root host m _ s service action _ hreach hmiss' hsvc hact hcall hcount,
    toInt_of_lt N hN]
  obtain ⟨new, htr, -, hinv, hrec, hall⟩ :=
    elementLoop_spec host m s (servicename m s) service sub hsub N
      { (pre.foldl (instanceStep root host m) st) with
          result := (action.Call (pre.foldl (instanceStep root host m) st).world).1.1,
          world := (action.Call (pre.foldl (instanceStep root host m) st).world).2,
          trace := (pre.foldl (instanceStep root host m) st).trace
            ++ [Event.Call (servicename m s) m.Action] } hreach
  refine ⟨new, ?_, hinv, hrec, hall⟩
  rw [htr]
  simp [servicename]

theorem instance_enumerates_elements_witness :
    (1 : Int) ≤ 3 ∧ (3 : Int) ≤ demo.wlanSpec.ServiceCount ∧
    ∃ new : List Event,
      (([1, 2] ++ [3] : List Int).foldl (instanceStep demo.wlanRoot13 "fritz.box" demo.wlanSpec)
          (simplePhase demo.wlanRoot13 "fritz.box" metrics (initState ()))).trace
        = (([1, 2] : List Int).foldl (instanceStep demo.wlanRoot13 "fritz.box" demo.wlanSpec)
            (simplePhase demo.wlanRoot13 "fritz.box" metrics (initState ()))).trace
          ++ Event.Call (demo.wlanSpec.Service ++ ":" ++ toString (3 : Int))
              demo.wlanSpec.Action :: new ∧
      new.filter Event.isInvocation
        = (List.range 2).map (fun (j : Nat) =>
            Event.CallParam (demo.wlanSpec.Service ++ ":" ++ toString (3 : Int))
              demo.wlanSpec.SubAction "NewAssociatedDeviceIndex" (j : Int)) ∧
      (new.filter Event.isRecord).length = 2 ∧
      ∀ e ∈ new, e.isRecord = true →
        ∃ fields tags, e = Event.AddFields demo.wlanSpec.Name fields tags ∧
          ((∀ nv ∈ demo.wlanSpec.SubResults.Tags, nv.1 ≠ "service") →
            mapGet tags "service" = some (toString (3 : Int))) :=
  instance_enumerates_elements demo.wlanRoot13 "fritz.box" demo.wlanSpec
    (simplePhase demo.wlanRoot13 "fritz.box" metrics (initState ())) [1, 2] [] 3
    { Actions :=
        [("GetTotalAssociations", demo.constAction [("TotalAssociations", Value.uint64 2)]),
         ("GetGenericAssociatedDeviceInfo", demo.constAction demo.deviceInfo)] }
    (demo.constAction [("TotalAssociations", Value.uint64 2)])
    (demo.constAction demo.deviceInfo) 2
    (by decide) (by decide) (by decide) rfl rfl (by decide) (by decide)
    (by norm_num) rfl

/-- C8, counterexample, on the tables of the source: the packet counter and the
per-element action succeed, but the Results they return lack the result keys
"TotalPacketsReceived", "X_AVM-DE_SignalStrength" and "X_AVM-DE_Speed"; the
"fritzbox" record and the per-element record nevertheless have entries for
the fields of these keys, with the nil value. -/
theorem absent_key_writes_nil_field :
    mapGet ((demo.constAction [("PacketsReceived", Value.uint64 42)]).Call ()).1.1
        "TotalPacketsReceived" = none ∧
      Gather (demo.loadOk demo.sparseRoot) metrics complexMetrics demo.zeroConfig ()
        = { outcome := Outcome.returned none,
            trace := [Event.Call "urn:schemas-upnp-org:service:WANCommonInterfaceConfig:1"
                "GetTotalPacketsReceived",
              Event.AddFields "fritzbox" [("packets_received", Value.nil)]
                [("fritzbox", "fritz.box")],
              Event.Call "urn:dslforum-org:service:WLANConfiguration:1" "GetTotalAssociations",
              Event.CallParam "urn:dslforum-org:service:WLANConfiguration:1"
                "GetGenericAssociatedDeviceInfo" "NewAssociatedDeviceIndex" 0,
              Event.AddFields "fritzbox-wifi"
                [("wlan_device_signal", Value.nil), ("wlan_device_speed", Value.nil)]
                [("service", "1"), ("fritzbox", "fritz.box"),
                 ("wlan_device_mac", "AA:BB"), ("wlan_device_ip", "<nil>")]],
            world := () } := by
  refine ⟨by decide, by decide⟩

/-- C8, amended: a field is written to an emitted record only from a Result
its spec entry corresponds to, but without a check that the result key is
present.  For every catalog and the table `metrics`: every key of the fields
map of the "fritzbox" record is the field name of a spec whose service and
action resolve and that is served by a successful invocation of its action,
and its value is what the Result of that invocation has for the spec's result
key, which is nil when the key is absent; conversely every spec so served has
that entry.  For every per-element record built from a successful per-element
invocation, the fields map is `complexfields` of the returned Result: its
keys are exactly the field names of `SubResults.Results`, each with the value
the Result has for its result key, nil when the key is absent. -/
theorem fields_come_from_served_entries {σ : Type} (root : upnp.Root σ) (host : String)
    (w : σ) (m : ComplexMetric) (r : upnp.Result) :
    (∀ fields tags,
        Event.AddFields "fritzbox" fields tags
          ∈ (simplePhase root host metrics (initState w)).trace →
        ∀ k v, mapGet fields k = some v →
          ∃ pre sp post service action w0, metrics = pre ++ sp :: post ∧ sp.Name = k ∧
            mapGet root.Services sp.Service = some service ∧
            mapGet service.Actions sp.Action = some action ∧
            servedAt root w pre sp action w0 ∧
            (action.Call w0).1.2 = none ∧
            v = index (action.Call w0).1.1 sp.Result) ∧
      (∀ fields tags,
        Event.AddFields "fritzbox" fields tags
          ∈ (simplePhase root host metrics (initState w)).trace →
        ∀ pre sp post service action w0, metrics = pre ++ sp :: post →
          mapGet root.Services sp.Service = some service →
          mapGet service.Actions sp.Action = some action →
          servedAt root w pre sp action w0 →
          (action.Call w0).1.2 = none →
          mapGet fields sp.Name = some (index (action.Call w0).1.1 sp.Result)) ∧
      (∀ k v, mapGet (complexfields m r) k = some v →
        ∃ nv ∈ m.SubResults.Results, nv.1 = k ∧ v = index r nv.2) ∧
      (∀ nv ∈ m.SubResults.Results, ∃ v, mapGet (complexfields m r) nv.1 = some v) ∧
      (∀ (s : Int) (sn : String) (service : upnp.Service σ) (sub : upnp.Action σ)
          (st : State σ) (i : Nat),
        st.panicked = false → mapGet service.Actions m.SubAction = some sub →
        (sub.CallParam "NewAssociatedDeviceIndex" (i : Int) st.world).1.2 = none →
        (elementStep host m s sn service st i).trace
          = st.trace ++
            [Event.CallParam sn m.SubAction "NewAssociatedDeviceIndex" (i : Int),
             Event.AddFields m.Name
               (complexfields m (sub.CallParam "NewAssociatedDeviceIndex" (i : Int) st.world).1.1)
               (complextags host m s
                 (sub.CallParam "NewAssociatedDeviceIndex" (i : Int) st.world).1.1)]) ∧
      (∀ (res : upnp.Result) (key : String), mapGet res key = none → index res key = Value.nil) := by
  refine ⟨?_, ?_, ?_, ?_, ?_, ?_⟩
  · intro fields tags hmem k v hk
    rw [fritzbox_record_fields root host w metrics fields tags hmem] at hk
    exact metrics_fields_source root w k v hk
  · intro fields tags hmem pre sp post service action w0 hpos hsvc hact hserved hok
    rw [fritzbox_record_fields root host w metrics fields tags hmem]
    have hnames : (metrics.map Metric.Name).Nodup := by decide
    have hfield := served_field root w pre post sp service action w0 (hpos ▸ hnames)
      hsvc hact hserved hok
    rw [← hpos] at hfield
    exact hfield
  · intro k v hk
    rcases assignLoop_origin (fun nv => index r nv.2) m.SubResults.Results [] k v hk with h | h
    · exact h
    · simp [mapGet] at h
  · intro nv hnv
    exact assignLoop_present (fun nv => index r nv.2) m.SubResults.Results [] nv hnv
  · intro s sn service sub st i hp hsub _
    rw [elementStep_ok host m s sn service sub st i hp hsub]
  · intro res key h
    simp [index, h]

theorem fields_come_from_served_entries_witness :
    ∃ pre sp post service action w0, metrics = pre ++ sp :: post ∧ sp.Name = "packets_received" ∧
      mapGet demo.sparseRoot.Services sp.Service = some service ∧
      mapGet service.Actions sp.Action = some action ∧
      servedAt demo.sparseRoot () pre sp action w0 ∧
      (action.Call w0).1.2 = none ∧
      Value.nil = index (action.Call w0).1.1 sp.Result :=
  (fields_come_from_served_entries demo.sparseRoot "fritz.box" () demo.wlanSpec []).1
    [("packets_received", Value.nil)] [("fritzbox", "fritz.box")] (by decide)
    "packets_received" Value.nil (by decide)

end fritzbox
